import Mathlib

/-!
# Verification of the figma-ai-designer HTML→Figma synthesis core

Shallow embedding of the value parsers (`src/mcp-server/html-parser.ts`)
and of the layout synthesizer (`src/plugin/html-parser.ts`,
`src/plugin/code.ts`), together with theorems settling the spec claims.

JavaScript numbers are modelled as exact rationals (`ℚ`); the IEEE value
NaN — producible here only by `parseFloat` on inputs such as a bare dot —
is modelled by `none` in `JsNum := Option ℚ`.  JavaScript regular
expressions are modelled by hand-written matchers over `List Char` that
are equivalent to the concrete regexes of the source on all inputs (the
regexes involved are deterministic: every greedy character class is
followed by a character it cannot consume, so backtracking never changes
the outcome).
-/

namespace Spec2Proof

/-- A JavaScript number: `none` models NaN. -/
abbrev JsNum := Option ℚ

/-- Addition on JS numbers (NaN-propagating). -/
def jadd : JsNum → JsNum → JsNum
  | some x, some y => some (x + y)
  | _, _ => none

/-- Subtraction on JS numbers (NaN-propagating). -/
def jsub : JsNum → JsNum → JsNum
  | some x, some y => some (x - y)
  | _, _ => none

/-- Multiplication on JS numbers (NaN-propagating). -/
def jmul : JsNum → JsNum → JsNum
  | some x, some y => some (x * y)
  | _, _ => none

/-- Division on JS numbers.  Every division in the embedded code has a
non-zero, non-NaN denominator or is explicitly guarded, so the
division-by-zero case (JS Infinity) is mapped to `none` and never
reached. -/
def jdiv : JsNum → JsNum → JsNum
  | some x, some y => if y = 0 then none else some (x / y)
  | _, _ => none

/-- `Math.abs` (NaN-propagating). -/
def jsAbs : JsNum → JsNum
  | some x => some |x|
  | none => none

/-- `Math.min` (returns NaN if either argument is NaN). -/
def jsMin : JsNum → JsNum → JsNum
  | some x, some y => some (min x y)
  | _, _ => none

/-- `Math.max` (returns NaN if either argument is NaN). -/
def jsMax : JsNum → JsNum → JsNum
  | some x, some y => some (max x y)
  | _, _ => none

/-- Truncation toward zero, as used by the JS `%` operator. -/
def ratTrunc (x : ℚ) : ℤ :=
  if 0 ≤ x then ⌊x⌋ else -⌊-x⌋

/-- The JS remainder operator `%` (truncated remainder, NaN-propagating;
`x % 0` is NaN). -/
def jsMod : JsNum → JsNum → JsNum
  | some x, some y => if y = 0 then none else some (x - y * (ratTrunc (x / y) : ℚ))
  | _, _ => none

/-- The JS comparison `<`: false whenever an operand is NaN. -/
def jlt : JsNum → JsNum → Bool
  | some x, some y => decide (x < y)
  | _, _ => false

/-- Decimal value of a digit string, as computed by `parseInt(s, 10)`. -/
def digitsVal (cs : List Char) : ℕ :=
  cs.foldl (fun n c => n * 10 + (c.toNat - '0'.toNat)) 0

/-- Value of a single hexadecimal digit (either case). -/
def hexVal (c : Char) : ℕ :=
  if '0' ≤ c ∧ c ≤ '9' then c.toNat - '0'.toNat
  else if 'a' ≤ c ∧ c ≤ 'f' then c.toNat - 'a'.toNat + 10
  else if 'A' ≤ c ∧ c ≤ 'F' then c.toNat - 'A'.toNat + 10
  else 0

/-- Whether a character matches the regex class `[0-9a-f]` under the `i`
flag. -/
def isHexDigit (c : Char) : Bool :=
  (decide ('0' ≤ c) && decide (c ≤ '9')) ||
  (decide ('a' ≤ c) && decide (c ≤ 'f')) ||
  (decide ('A' ≤ c) && decide (c ≤ 'F'))

/-- `parseFloat` on the strings producible by the captures `[\d.]+` and
`-?[\d.]+` of the embedded regexes: longest numeric prefix, NaN (`none`)
when no digit is found before the first break. -/
def jsParseFloat (cs0 : List Char) : JsNum :=
  let signed := cs0.head? = some '-'
  let cs := if signed then cs0.tail else cs0
  let intPart := cs.takeWhile Char.isDigit
  let rest := cs.drop intPart.length
  let fracPart :=
    match rest with
    | '.' :: r => r.takeWhile Char.isDigit
    | _ => []
  if intPart = [] ∧ fracPart = [] then none
  else
    let v : ℚ := (digitsVal intPart : ℚ) + (digitsVal fracPart : ℚ) / (10 : ℚ) ^ fracPart.length
    some (if signed then -v else v)

/-- Whitespace class `\s` (restricted to the ASCII whitespace actually
occurring in style declaration values). -/
def isWs (c : Char) : Bool :=
  c = ' ' || c = '\t' || c = '\n' || c = '\r'

/-- Consume `\s*`. -/
def skipWs (cs : List Char) : List Char :=
  cs.dropWhile isWs

/-- `String.prototype.trim`. -/
def trimChars (cs : List Char) : List Char :=
  ((cs.dropWhile isWs).reverse.dropWhile isWs).reverse

/-- Expect one literal character. -/
def expectChar (c : Char) : List Char → Option (List Char)
  | x :: rest => if x = c then some rest else none
  | [] => none

/-- Case-insensitive literal match. -/
def matchCI : List Char → List Char → Option (List Char)
  | [], cs => some cs
  | _ :: _, [] => none
  | l :: ls, c :: cs => if c.toLower = l.toLower then matchCI ls cs else none

/-- Greedy `(\d+)` capture. -/
def takeDigits1 (cs : List Char) : Option (List Char × List Char) :=
  let ds := cs.takeWhile Char.isDigit
  if ds = [] then none else some (ds, cs.drop ds.length)

/-- Greedy `([\d.]+)` capture. -/
def takeNumDot1 (cs : List Char) : Option (List Char × List Char) :=
  let ds := cs.takeWhile (fun c => c.isDigit || c = '.')
  if ds = [] then none else some (ds, cs.drop ds.length)

/-- Greedy `(-?[\d.]+)` capture (sign included in the capture, as in the
source regexes). -/
def takeSignedNum (cs : List Char) : Option (List Char × List Char) :=
  match cs with
  | '-' :: rest => (takeNumDot1 rest).map (fun p => ('-' :: p.1, p.2))
  | _ => takeNumDot1 cs

/-- A parsed color; channels are JS numbers normalised (or not) to 0–1. -/
structure RGBA where
  r : JsNum
  g : JsNum
  b : JsNum
  a : JsNum
deriving DecidableEq, Repr

/-- Build an RGBA from plain rationals (used for the named-color table,
whose entries are all finite literals). -/
def rgbaQ (r g b a : ℚ) : RGBA := ⟨some r, some g, some b, some a⟩

/-- `hslToRgb` of `src/mcp-server/html-parser.ts` (lines 10–33): standard
hue-sector decomposition, with h normalised mod 360 and s, l clamped to
0–1. -/
def hslToRgb (h0 s0 l0 : JsNum) : JsNum × JsNum × JsNum :=
  let h := jsMod (jadd (jsMod h0 (some 360)) (some 360)) (some 360)
  let s := jsMax (some 0) (jsMin (some 1) s0)
  let l := jsMax (some 0) (jsMin (some 1) l0)
  let c := jmul (jsub (some 1) (jsAbs (jsub (jmul (some 2) l) (some 1)))) s
  let x := jmul c (jsub (some 1) (jsAbs (jsub (jsMod (jdiv h (some 60)) (some 2)) (some 1))))
  let m := jsub l (jdiv c (some 2))
  let rgb : JsNum × JsNum × JsNum :=
    if jlt h (some 60) then (c, x, some 0)
    else if jlt h (some 120) then (x, c, some 0)
    else if jlt h (some 180) then (some 0, c, x)
    else if jlt h (some 240) then (some 0, x, c)
    else if jlt h (some 300) then (x, some 0, c)
    else (c, some 0, x)
  (jadd rgb.1 m, jadd rgb.2.1 m, jadd rgb.2.2 m)

/-- The anchored hex-color regex `^#([0-9a-f]{3,8})$/i`: returns the
captured digit run. -/
def matchHexColor (cs : List Char) : Option (List Char) :=
  match cs with
  | '#' :: rest =>
    if 3 ≤ rest.length ∧ rest.length ≤ 8 ∧ rest.all isHexDigit then some rest else none
  | _ => none

/-- The hex branch of `parseColor` (lines 42–65): 3-, 6- and 8-digit
forms produce a color, other captured lengths fall through. -/
def hexColorValue (hex : List Char) : Option RGBA :=
  match hex with
  | [h0, h1, h2] =>
    some (rgbaQ ((hexVal h0 * 16 + hexVal h0 : ℕ) / 255)
                ((hexVal h1 * 16 + hexVal h1 : ℕ) / 255)
                ((hexVal h2 * 16 + hexVal h2 : ℕ) / 255) 1)
  | [h0, h1, h2, h3, h4, h5] =>
    some (rgbaQ ((hexVal h0 * 16 + hexVal h1 : ℕ) / 255)
                ((hexVal h2 * 16 + hexVal h3 : ℕ) / 255)
                ((hexVal h4 * 16 + hexVal h5 : ℕ) / 255) 1)
  | [h0, h1, h2, h3, h4, h5, h6, h7] =>
    some ⟨some ((hexVal h0 * 16 + hexVal h1 : ℕ) / 255),
          some ((hexVal h2 * 16 + hexVal h3 : ℕ) / 255),
          some ((hexVal h4 * 16 + hexVal h5 : ℕ) / 255),
          some ((hexVal h6 * 16 + hexVal h7 : ℕ) / 255)⟩
  | _ => none

/-- Anchored attempt of the functional-rgb regex
`rgba?\s*\(\s*(\d+)\s*,\s*(\d+)\s*,\s*(\d+)\s*(?:,\s*([\d.]+))?\s*\)/i`
at the head of the input.  Captures the three integer channels and the
raw alpha capture when present. -/
def rgbAt (cs : List Char) : Option (ℕ × ℕ × ℕ × Option (List Char)) := do
  let cs ← matchCI ['r', 'g', 'b'] cs
  let cs := match cs with
    | 'a' :: rest => rest
    | 'A' :: rest => rest
    | _ => cs
  let cs ← expectChar '(' (skipWs cs)
  let (d1, cs) ← takeDigits1 (skipWs cs)
  let cs ← expectChar ',' (skipWs cs)
  let (d2, cs) ← takeDigits1 (skipWs cs)
  let cs ← expectChar ',' (skipWs cs)
  let (d3, cs) ← takeDigits1 (skipWs cs)
  match skipWs cs with
  | ',' :: cs1 => do
    let (av, cs2) ← takeNumDot1 (skipWs cs1)
    let _ ← expectChar ')' (skipWs cs2)
    some (digitsVal d1, digitsVal d2, digitsVal d3, some av)
  | cs1 => do
    let _ ← expectChar ')' cs1
    some (digitsVal d1, digitsVal d2, digitsVal d3, none)

/-- Anchored attempt of the functional-hsl regex
`hsla?\s*\(\s*([\d.]+)\s*,\s*([\d.]+)%\s*,\s*([\d.]+)%\s*(?:,\s*([\d.]+))?\s*\)/i`. -/
def hslAt (cs : List Char) :
    Option (List Char × List Char × List Char × Option (List Char)) := do
  let cs ← matchCI ['h', 's', 'l'] cs
  let cs := match cs with
    | 'a' :: rest => rest
    | 'A' :: rest => rest
    | _ => cs
  let cs ← expectChar '(' (skipWs cs)
  let (hv, cs) ← takeNumDot1 (skipWs cs)
  let cs ← expectChar ',' (skipWs cs)
  let (sv, cs) ← takeNumDot1 (skipWs cs)
  let cs ← expectChar '%' cs
  let cs ← expectChar ',' (skipWs cs)
  let (lv, cs) ← takeNumDot1 (skipWs cs)
  let cs ← expectChar '%' cs
  match skipWs cs with
  | ',' :: cs1 => do
    let (av, cs2) ← takeNumDot1 (skipWs cs1)
    let _ ← expectChar ')' (skipWs cs2)
    some (hv, sv, lv, some av)
  | cs1 => do
    let _ ← expectChar ')' cs1
    some (hv, sv, lv, none)

/-- Unanchored regex search (`String.prototype.match`): try the anchored
matcher at each position, leftmost first. -/
def scan {α : Type} (f : List Char → Option α) : List Char → Option α
  | [] => f []
  | c :: rest =>
    match f (c :: rest) with
    | some a => some a
    | none => scan f rest

/-- The fixed named-color dictionary of `parseColor` (lines 90–161). -/
def namedColors : List (String × RGBA) :=
  [("white", rgbaQ 1 1 1 1),
   ("black", rgbaQ 0 0 0 1),
   ("red", rgbaQ 1 0 0 1),
   ("green", rgbaQ 0 (128/255) 0 1),
   ("blue", rgbaQ 0 0 1 1),
   ("yellow", rgbaQ 1 1 0 1),
   ("transparent", rgbaQ 0 0 0 0),
   ("gray", rgbaQ (128/255) (128/255) (128/255) 1),
   ("grey", rgbaQ (128/255) (128/255) (128/255) 1),
   ("silver", rgbaQ (192/255) (192/255) (192/255) 1),
   ("darkgray", rgbaQ (169/255) (169/255) (169/255) 1),
   ("darkgrey", rgbaQ (169/255) (169/255) (169/255) 1),
   ("lightgray", rgbaQ (211/255) (211/255) (211/255) 1),
   ("lightgrey", rgbaQ (211/255) (211/255) (211/255) 1),
   ("orange", rgbaQ 1 (165/255) 0 1),
   ("purple", rgbaQ (128/255) 0 (128/255) 1),
   ("pink", rgbaQ 1 (192/255) (203/255) 1),
   ("brown", rgbaQ (165/255) (42/255) (42/255) 1),
   ("cyan", rgbaQ 0 1 1 1),
   ("aqua", rgbaQ 0 1 1 1),
   ("magenta", rgbaQ 1 0 1 1),
   ("fuchsia", rgbaQ 1 0 1 1),
   ("lime", rgbaQ 0 1 0 1),
   ("teal", rgbaQ 0 (128/255) (128/255) 1),
   ("navy", rgbaQ 0 0 (128/255) 1),
   ("maroon", rgbaQ (128/255) 0 0 1),
   ("olive", rgbaQ (128/255) (128/255) 0 1),
   ("coral", rgbaQ 1 (127/255) (80/255) 1),
   ("salmon", rgbaQ (250/255) (128/255) (114/255) 1),
   ("tomato", rgbaQ 1 (99/255) (71/255) 1),
   ("gold", rgbaQ 1 (215/255) 0 1),
   ("khaki", rgbaQ (240/255) (230/255) (140/255) 1),
   ("violet", rgbaQ (238/255) (130/255) (238/255) 1),
   ("indigo", rgbaQ (75/255) 0 (130/255) 1),
   ("plum", rgbaQ (221/255) (160/255) (221/255) 1),
   ("orchid", rgbaQ (218/255) (112/255) (214/255) 1),
   ("turquoise", rgbaQ (64/255) (224/255) (208/255) 1),
   ("skyblue", rgbaQ (135/255) (206/255) (235/255) 1),
   ("steelblue", rgbaQ (70/255) (130/255) (180/255) 1),
   ("royalblue", rgbaQ (65/255) (105/255) (225/255) 1),
   ("slateblue", rgbaQ (106/255) (90/255) (205/255) 1),
   ("darkblue", rgbaQ 0 0 (139/255) 1),
   ("lightblue", rgbaQ (173/255) (216/255) (230/255) 1),
   ("dodgerblue", rgbaQ (30/255) (144/255) (255/255) 1),
   ("forestgreen", rgbaQ (34/255) (139/255) (34/255) 1),
   ("seagreen", rgbaQ (46/255) (139/255) (87/255) 1),
   ("darkgreen", rgbaQ 0 (100/255) 0 1),
   ("lightgreen", rgbaQ (144/255) (238/255) (144/255) 1),
   ("limegreen", rgbaQ (50/255) (205/255) (50/255) 1),
   ("crimson", rgbaQ (220/255) (20/255) (60/255) 1),
   ("firebrick", rgbaQ (178/255) (34/255) (34/255) 1),
   ("darkred", rgbaQ (139/255) 0 0 1),
   ("hotpink", rgbaQ 1 (105/255) (180/255) 1),
   ("deeppink", rgbaQ 1 (20/255) (147/255) 1),
   ("chocolate", rgbaQ (210/255) (105/255) (30/255) 1),
   ("sienna", rgbaQ (160/255) (82/255) (45/255) 1),
   ("tan", rgbaQ (210/255) (180/255) (140/255) 1),
   ("wheat", rgbaQ (245/255) (222/255) (179/255) 1),
   ("beige", rgbaQ (245/255) (245/255) (220/255) 1),
   ("ivory", rgbaQ 1 1 (240/255) 1),
   ("snow", rgbaQ 1 (250/255) (250/255) 1),
   ("whitesmoke", rgbaQ (245/255) (245/255) (245/255) 1),
   ("aliceblue", rgbaQ (240/255) (248/255) 1 1),
   ("ghostwhite", rgbaQ (248/255) (248/255) 1 1),
   ("lavender", rgbaQ (230/255) (230/255) (250/255) 1),
   ("mintcream", rgbaQ (245/255) 1 (250/255) 1)]

/-- `parseColor` of `src/mcp-server/html-parser.ts` (lines 36–164):
hex, then functional rgb/rgba, then functional hsl/hsla, then the named
dictionary (looked up on the lowercased input; the JS prototype chain of
the dictionary object is not modelled).  `none` is the source's `null`. -/
def parseColor (colorStr : String) : Option RGBA :=
  if colorStr = "" then none
  else
    let cs := colorStr.data
    match (matchHexColor cs).bind hexColorValue with
    | some col => some col
    | none =>
      match scan rgbAt cs with
      | some (d1, d2, d3, aCap) =>
        some ⟨some ((d1 : ℚ) / 255), some ((d2 : ℚ) / 255), some ((d3 : ℚ) / 255),
              match aCap with
              | some av => jsParseFloat av
              | none => some 1⟩
      | none =>
        match scan hslAt cs with
        | some (hv, sv, lv, aCap) =>
          let h := jsParseFloat hv
          let s := jdiv (jsParseFloat sv) (some 100)
          let l := jdiv (jsParseFloat lv) (some 100)
          let a : JsNum :=
            match aCap with
            | some av => jsParseFloat av
            | none => some 1
          let rgb := hslToRgb h s l
          some ⟨rgb.1, rgb.2.1, rgb.2.2, a⟩
        | none =>
          (namedColors.find? (fun p => p.1 = colorStr.toLower)).map Prod.snd

/-- Length units of the `parseLength` regex `^(-?[\d.]+)(px|em|rem|%)?$`
(this regex is case-sensitive in the source). -/
inductive LenUnit
  | px
  | em
  | rem
  | pct
deriving DecidableEq, Repr

/-- Optional greedy unit group `(px|em|rem)?` of the calc binary regex. -/
def takeCalcUnit (cs : List Char) : Option LenUnit × List Char :=
  match cs with
  | 'p' :: 'x' :: rest => (some .px, rest)
  | 'r' :: 'e' :: 'm' :: rest => (some .rem, rest)
  | 'e' :: 'm' :: rest => (some .em, rest)
  | _ => (none, cs)

/-- Optional greedy unit group `(px|em|rem|%)?` of the length regex. -/
def takeLenUnit (cs : List Char) : Option LenUnit × List Char :=
  match cs with
  | 'p' :: 'x' :: rest => (some .px, rest)
  | 'r' :: 'e' :: 'm' :: rest => (some .rem, rest)
  | 'e' :: 'm' :: rest => (some .em, rest)
  | '%' :: rest => (some .pct, rest)
  | _ => (none, cs)

/-- The anchored calc binary-expression regex
`^(-?[\d.]+)(px|em|rem)?\s*([\+\-\*\/])\s*(-?[\d.]+)(px|em|rem)?$`. -/
def matchBinary (cs : List Char) :
    Option (List Char × Option LenUnit × Char × List Char × Option LenUnit) := do
  let (n1, cs) ← takeSignedNum cs
  let (u1, cs) := takeCalcUnit cs
  let cs := skipWs cs
  let (op, cs) ←
    match cs with
    | c :: rest =>
      if c = '+' ∨ c = '-' ∨ c = '*' ∨ c = '/' then some (c, rest) else none
    | [] => none
  let cs := skipWs cs
  let (n2, cs) ← takeSignedNum cs
  let (u2, cs) := takeCalcUnit cs
  if cs = [] then some (n1, u1, op, n2, u2) else none

/-- The anchored wrapper regex `^calc\s*\(\s*(.+)\s*\)$/i` followed by the
source's `.trim()` of the capture: succeeds when the input starts with
`calc`, optional spaces and `(` and ends in `)` with at least one
character in between; the capture is everything in between, trimmed. -/
def matchCalcBody (cs : List Char) : Option (List Char) := do
  let cs ← matchCI ['c', 'a', 'l', 'c'] cs
  let cs ← expectChar '(' (skipWs cs)
  match cs.getLast? with
  | some ')' =>
    if cs.length ≥ 2 then some (trimChars cs.dropLast) else none
  | _ => none

/-- Unit conversion of one calc operand: em and rem multiply by the base
font size, anything else (px or no unit) is taken as-is. -/
def calcToPx (v : JsNum) (u : Option LenUnit) (base : ℚ) : JsNum :=
  if u = some .em ∨ u = some .rem then jmul v (some base) else v

/-- `value.toLowerCase().startsWith('calc(')`. -/
def isCalcStart (cs : List Char) : Bool :=
  match cs with
  | c0 :: c1 :: c2 :: c3 :: c4 :: _ =>
    c0.toLower = 'c' && c1.toLower = 'a' && c2.toLower = 'l' && c3.toLower = 'c' && c4 = '('
  | _ => false

mutual

/-- `parseCalc` of `src/mcp-server/html-parser.ts` (lines 166–201).
The outer `none` is the source's `null` ("not recognized"); a `some`
carries the JS number (possibly NaN).  The fuel argument only bounds the
`calc(calc(...))` nesting depth, which is bounded by the string length;
`parseCalc` below instantiates it large enough for any input. -/
def parseCalcFuel : ℕ → List Char → ℚ → Option JsNum
  | 0, _, _ => none
  | fuel + 1, cs, base =>
    match matchCalcBody cs with
    | none => none
    | some expr =>
      match matchBinary expr with
      | some (n1, u1, op, n2, u2) =>
        let val1 := calcToPx (jsParseFloat n1) u1 base
        let val2 := calcToPx (jsParseFloat n2) u2 base
        if op = '+' then some (jadd val1 val2)
        else if op = '-' then some (jsub val1 val2)
        else if op = '*' then some (jmul val1 val2)
        else if val2 ≠ some 0 then some (jdiv val1 val2) else none
      | none => parseLengthFuel fuel expr base

/-- `parseLength` of `src/mcp-server/html-parser.ts` (lines 204–230). -/
def parseLengthFuel : ℕ → List Char → ℚ → Option JsNum
  | 0, _, _ => none
  | fuel + 1, cs, base =>
    if cs = [] then none
    else if isCalcStart cs then parseCalcFuel fuel cs base
    else
      match (do
        let (n, cs1) ← takeSignedNum cs
        let (u, cs2) := takeLenUnit cs1
        if cs2 = [] then some (n, u) else none : Option (List Char × Option LenUnit)) with
      | none => none
      | some (n, u) =>
        match u with
        | some .pct => none
        | some .em => some (jmul (jsParseFloat n) (some base))
        | some .rem => some (jmul (jsParseFloat n) (some base))
        | _ => some (jsParseFloat n)

end

/-- `parseCalc` with enough fuel for any input (each `calc(`…`)` layer
strips at least six characters, so string-length fuel suffices). -/
def parseCalc (s : String) (base : ℚ) : Option JsNum :=
  parseCalcFuel (s.data.length + 1) s.data base

/-- `parseLength` with enough fuel for any input. -/
def parseLength (s : String) (base : ℚ) : Option JsNum :=
  parseLengthFuel (s.data.length + 1) s.data base

/-! ## The plugin-side layout synthesizer (`src/plugin/html-parser.ts`)

Style values reaching the plugin have already been parsed by the MCP
server; they are plain JS numbers here, modelled as `ℚ`.  Visual-only
style fields (colors, gradients, shadows, radii, strokes, opacity,
visibility, rotation, translation, overflow, min/max constraints) are
written by the source but never read back by any fragment relevant to the
claims, so they are omitted from the frame state. -/

/-- `display` values of `ParsedStyle`. -/
inductive Display
  | flex
  | inlineFlex
  | block
  | inline
  | inlineBlock
  | hidden
deriving DecidableEq, Repr

/-- `flex-direction` values. -/
inductive FlexDirection
  | row
  | column
  | rowReverse
  | columnReverse
deriving DecidableEq, Repr

/-- `justify-content` values. -/
inductive JustifyContent
  | flexStart
  | flexEnd
  | center
  | spaceBetween
  | spaceAround
  | spaceEvenly
deriving DecidableEq, Repr

/-- `align-items` values. -/
inductive AlignItems
  | flexStart
  | flexEnd
  | center
  | stretch
  | baseline
deriving DecidableEq, Repr

/-- `position` values. -/
inductive PositionKind
  | static
  | relative
  | absolute
  | fixed
deriving DecidableEq, Repr

/-- `text-align` values. -/
inductive TextAlignKind
  | left
  | center
  | right
  | justify
deriving DecidableEq, Repr

/-- `flex-wrap` values. -/
inductive FlexWrap
  | nowrap
  | wrap
  | wrapReverse
deriving DecidableEq, Repr

/-- A width/height declaration: concrete number, `auto` (hug) or `fill`. -/
inductive Dim
  | num (v : ℚ)
  | auto
  | fill
deriving DecidableEq, Repr

/-- A margin declaration: concrete number or `auto`. -/
inductive MarginVal
  | num (v : ℚ)
  | auto
deriving DecidableEq, Repr

/-- The subset of `ParsedStyle` fields read by the embedded fragments. -/
structure ParsedStyle where
  display : Option Display := none
  flexDirection : Option FlexDirection := none
  justifyContent : Option JustifyContent := none
  alignItems : Option AlignItems := none
  gap : Option ℚ := none
  flexGrow : Option ℚ := none
  flexWrap : Option FlexWrap := none
  position : Option PositionKind := none
  top : Option ℚ := none
  right : Option ℚ := none
  bottom : Option ℚ := none
  left : Option ℚ := none
  zIndex : Option ℚ := none
  width : Option Dim := none
  height : Option Dim := none
  heightPercent : Option ℚ := none
  aspectRatio : Option ℚ := none
  padding : Option ℚ := none
  paddingTop : Option ℚ := none
  paddingRight : Option ℚ := none
  paddingBottom : Option ℚ := none
  paddingLeft : Option ℚ := none
  margin : Option ℚ := none
  marginTop : Option MarginVal := none
  marginRight : Option MarginVal := none
  marginBottom : Option MarginVal := none
  marginLeft : Option MarginVal := none
  scaleX : Option ℚ := none
  scaleY : Option ℚ := none
  textAlign : Option TextAlignKind := none
deriving DecidableEq, Repr

/-- Figma `layoutMode`. -/
inductive LayoutMode
  | NONE
  | HORIZONTAL
  | VERTICAL
deriving DecidableEq, Repr

/-- Figma `layoutSizingHorizontal` / `layoutSizingVertical` values. -/
inductive LayoutSizing
  | FIXED
  | FILL
  | HUG
deriving DecidableEq, Repr

/-- Figma primary/counter axis alignment. -/
inductive AxisAlign
  | MIN
  | MAX
  | CENTER
  | SPACE_BETWEEN
deriving DecidableEq, Repr

/-- Figma `primaryAxisSizingMode` / `counterAxisSizingMode`. -/
inductive AxisSizing
  | AUTO
  | FIXED
deriving DecidableEq, Repr

/-- Figma `layoutPositioning`. -/
inductive Positioning
  | AUTO
  | ABSOLUTE
deriving DecidableEq, Repr

/-- The fields of a Figma node that the embedded fragments read or write.
The per-node entries of the module-level side tables (`pendingLayoutSizing`,
`intendedFixedWidth`, `explicitAlignItems`, the per-parent `flexGrowMap`
ledger and the global `nestedFlexGrowMap`) are stored inline, keyed by the
node they belong to exactly as the WeakMaps are. -/
structure FrameData where
  name : String := ""
  isFrame : Bool := true
  layoutMode : LayoutMode := .NONE
  layoutWrap : Bool := false
  width : ℚ := 100
  height : ℚ := 100
  paddingLeft : ℚ := 0
  paddingRight : ℚ := 0
  paddingTop : ℚ := 0
  paddingBottom : ℚ := 0
  itemSpacing : ℚ := 0
  primaryAxisAlignItems : AxisAlign := .MIN
  counterAxisAlignItems : AxisAlign := .MIN
  primaryAxisSizingMode : AxisSizing := .AUTO
  counterAxisSizingMode : AxisSizing := .AUTO
  layoutSizingHorizontal : LayoutSizing := .HUG
  layoutSizingVertical : LayoutSizing := .HUG
  layoutPositioning : Positioning := .AUTO
  layoutGrow : ℚ := 0
  pendingH : Option LayoutSizing := none
  pendingV : Option LayoutSizing := none
  intendedWidth : Option ℚ := none
  explicitAlign : Bool := false
  ledgerGrow : Option ℚ := none
  nestedGrow : Option ℚ := none
deriving DecidableEq, Repr

/-- JS template interpolation of a possibly-undefined number. -/
def optQToString : Option ℚ → String
  | some q => toString q
  | none => "undefined"

/-- String form of an axis sizing mode, as interpolated by the debug
naming in the source. -/
def axisSizingToString : AxisSizing → String
  | .AUTO => "AUTO"
  | .FIXED => "FIXED"

/-- Auto-layout section of `applyFrameStyles` (lines 158–213). -/
def applyAutoLayoutSection (styles : ParsedStyle) (frame0 : FrameData)
    (parentWidth : Option ℚ) : FrameData :=
  if styles.display = some .flex then
    let f1 := { frame0 with layoutMode :=
      if (decide (styles.flexDirection = some .column) ||
          decide (styles.flexDirection = some .columnReverse))
      then LayoutMode.VERTICAL else LayoutMode.HORIZONTAL }
    -- Justify content
    let f2 := match styles.justifyContent with
      | some .flexStart => { f1 with primaryAxisAlignItems := AxisAlign.MIN }
      | some .flexEnd => { f1 with primaryAxisAlignItems := AxisAlign.MAX }
      | some .center => { f1 with primaryAxisAlignItems := AxisAlign.CENTER }
      | some .spaceBetween =>
        { f1 with primaryAxisAlignItems := AxisAlign.SPACE_BETWEEN,
                  name := "SB parentW=" ++ optQToString parentWidth }
      | some .spaceAround =>
        { f1 with primaryAxisAlignItems := AxisAlign.SPACE_BETWEEN,
                  name := "SB parentW=" ++ optQToString parentWidth }
      | some .spaceEvenly =>
        { f1 with primaryAxisAlignItems := AxisAlign.SPACE_BETWEEN,
                  name := "SB parentW=" ++ optQToString parentWidth }
      | none => f1
    -- Align items (explicit non-stretch alignment is tracked in the
    -- `explicitAlignItems` side table)
    let f3 := match styles.alignItems with
      | some .flexStart => { f2 with counterAxisAlignItems := AxisAlign.MIN, explicitAlign := true }
      | some .flexEnd => { f2 with counterAxisAlignItems := AxisAlign.MAX, explicitAlign := true }
      | some .center => { f2 with counterAxisAlignItems := AxisAlign.CENTER, explicitAlign := true }
      | _ => f2
    -- Gap
    let f4 := match styles.gap with
      | some g => { f3 with itemSpacing := g }
      | none => f3
    -- Flex wrap
    if (decide (styles.flexWrap = some .wrap) || decide (styles.flexWrap = some .wrapReverse))
    then { f4 with layoutWrap := true, primaryAxisSizingMode := AxisSizing.FIXED }
    else f4
  else frame0

/-- Horizontal padding added outward to an explicit numeric width
(lines 221–224): the uniform shorthand wins over the per-side values. -/
def widthPaddingOf (styles : ParsedStyle) : ℚ :=
  match styles.padding with
  | some p => p * 2
  | none => styles.paddingLeft.getD 0 + styles.paddingRight.getD 0

/-- Vertical padding added outward to an explicit numeric height
(lines 301–304). -/
def heightPaddingOf (styles : ParsedStyle) : ℚ :=
  match styles.padding with
  | some p => p * 2
  | none => styles.paddingTop.getD 0 + styles.paddingBottom.getD 0

/-- Width-sizing section of `applyFrameStyles` (lines 215–296):
content-box semantics, padding added outward for explicit numeric
widths. -/
def applyWidthSection (styles : ParsedStyle) (frame : FrameData)
    (parentWidth : Option ℚ) : FrameData :=
  match styles.width with
  | some (.num w) =>
    let totalWidth := w + widthPaddingOf styles
    let f1 := { frame with width := totalWidth, pendingH := some LayoutSizing.FIXED }
    if f1.layoutMode = LayoutMode.VERTICAL then
      { f1 with counterAxisSizingMode := AxisSizing.FIXED }
    else if f1.layoutMode = LayoutMode.HORIZONTAL then
      { f1 with primaryAxisSizingMode := AxisSizing.FIXED }
    else f1
  | some .fill => { frame with pendingH := some LayoutSizing.FILL }
  | some .auto => { frame with pendingH := some LayoutSizing.HUG }
  | none =>
    match parentWidth with
    | some pw =>
      let isAbsolutePositioned :=
        decide (styles.position = some PositionKind.absolute) ||
        decide (styles.position = some PositionKind.fixed)
      let hasLeftAndRight := styles.left.isSome && styles.right.isSome
      let isInlineDisplay := decide (styles.display = some Display.inline) ||
        decide (styles.display = some Display.inlineFlex) ||
        decide (styles.display = some Display.inlineBlock)
      if !isAbsolutePositioned && !isInlineDisplay then
        let marginLeft : ℚ := match styles.marginLeft with | some (.num v) => v | _ => 0
        let marginRight : ℚ := match styles.marginRight with | some (.num v) => v | _ => 0
        let availableWidth := pw - marginLeft - marginRight
        if availableWidth > 0 then
          let f1 := { frame with width := availableWidth, pendingH := some LayoutSizing.FIXED }
          let f2 :=
            if f1.layoutMode = LayoutMode.HORIZONTAL then
              let f1a := { f1 with primaryAxisSizingMode := AxisSizing.FIXED }
              if (decide (styles.justifyContent = some JustifyContent.spaceBetween) ||
                  decide (styles.justifyContent = some JustifyContent.spaceAround) ||
                  decide (styles.justifyContent = some JustifyContent.spaceEvenly)) then
                { f1a with intendedWidth := some availableWidth }
              else f1a
            else f1
          if f2.name.startsWith "SB " then
            { f2 with name := ("SB avail=" ++ toString availableWidth ++ " w=" ++
                toString f2.width ++ " pAS=" ++ axisSizingToString f2.primaryAxisSizingMode) }
          else f2
        else frame
      else if hasLeftAndRight then
        let availableWidth := pw - styles.left.getD 0 - styles.right.getD 0
        if availableWidth > 0 then { frame with width := availableWidth } else frame
      else frame
    | none => frame

/-- Height-sizing section of `applyFrameStyles` (lines 298–330); the
vertical pending intent is stored under the source key `height`. -/
def applyHeightSection (styles : ParsedStyle) (frame : FrameData) : FrameData :=
  match styles.height with
  | some (.num h) =>
    let totalHeight := h + heightPaddingOf styles
    let f1 := { frame with height := totalHeight, pendingV := some LayoutSizing.FIXED }
    if f1.layoutMode = LayoutMode.HORIZONTAL then
      { f1 with counterAxisSizingMode := AxisSizing.FIXED }
    else if f1.layoutMode = LayoutMode.VERTICAL then
      { f1 with primaryAxisSizingMode := AxisSizing.FIXED }
    else f1
  | some .fill => { frame with pendingV := some LayoutSizing.FILL }
  | some .auto => { frame with pendingV := some LayoutSizing.HUG }
  | none => frame

/-- Padding section of `applyFrameStyles` (lines 339–348); the preceding
min/max section (lines 333–336) writes min/max fields only and is
omitted (Figma-internal clamping is not modelled). -/
def applyPaddingSection (styles : ParsedStyle) (frame : FrameData) : FrameData :=
  let f1 := match styles.padding with
    | some p => { frame with paddingTop := p, paddingRight := p,
                             paddingBottom := p, paddingLeft := p }
    | none => frame
  let f2 := match styles.paddingTop with
    | some v => { f1 with paddingTop := v }
    | none => f1
  let f3 := match styles.paddingRight with
    | some v => { f2 with paddingRight := v }
    | none => f2
  let f4 := match styles.paddingBottom with
    | some v => { f3 with paddingBottom := v }
    | none => f3
  match styles.paddingLeft with
  | some v => { f4 with paddingLeft := v }
  | none => f4

/-- Scale-transform section of `applyFrameStyles` (lines 560–566): a
declared scale resizes the frame directly.  The sections between padding
and scale (background, radius, border, opacity, effects, visibility,
rotation — lines 350–556) write visual fields only and are omitted. -/
def applyScaleSection (styles : ParsedStyle) (frame : FrameData) : FrameData :=
  if styles.scaleX.isSome || styles.scaleY.isSome then
    let sx := match styles.scaleX with | some v => v | none => 1
    let sy := match styles.scaleY with | some v => v | none => 1
    { frame with width := frame.width * sx, height := frame.height * sy }
  else frame

/-- Text-alignment section of `applyFrameStyles` (lines 579–617); the
overflow section before it (lines 572–574) writes `clipsContent` only
and is omitted. -/
def applyTextAlignSection (styles : ParsedStyle) (frame : FrameData) : FrameData :=
  match styles.textAlign with
  | some ta =>
    let f1 :=
      if frame.layoutMode = LayoutMode.NONE then
        { frame with layoutMode := LayoutMode.VERTICAL,
                     primaryAxisSizingMode := AxisSizing.AUTO,
                     counterAxisSizingMode := AxisSizing.FIXED }
      else frame
    if f1.layoutMode = LayoutMode.VERTICAL then
      match ta with
      | .center => { f1 with counterAxisAlignItems := AxisAlign.CENTER }
      | .right => { f1 with counterAxisAlignItems := AxisAlign.MAX }
      | .left => { f1 with counterAxisAlignItems := AxisAlign.MIN }
      | .justify => f1
    else if f1.layoutMode = LayoutMode.HORIZONTAL then
      match ta with
      | .center => { f1 with primaryAxisAlignItems := AxisAlign.CENTER }
      | .right => { f1 with primaryAxisAlignItems := AxisAlign.MAX }
      | .left => { f1 with primaryAxisAlignItems := AxisAlign.MIN }
      | .justify => f1
    else f1
  | none => frame

/-- `applyFrameStyles` of `src/plugin/html-parser.ts` (lines 157–619):
the layout-relevant sections applied in source order. -/
def applyFrameStyles (styles : ParsedStyle) (frame : FrameData)
    (parentWidth : Option ℚ) : FrameData :=
  applyTextAlignSection styles
    (applyScaleSection styles
      (applyPaddingSection styles
        (applyHeightSection styles
          (applyWidthSection styles
            (applyAutoLayoutSection styles frame parentWidth) parentWidth))))

/-- A parsed element of the source tree (`ParsedElement` of
`src/shared/types.ts`). -/
inductive ParsedElement where
  | mk (tagName : String) (styles : ParsedStyle) (textContent : Option String)
       (children : List ParsedElement)

/-- Tag identity of an element. -/
def ParsedElement.tagName : ParsedElement → String
  | .mk t _ _ _ => t

/-- Style record of an element. -/
def ParsedElement.styles : ParsedElement → ParsedStyle
  | .mk _ s _ _ => s

/-- Direct text content of an element. -/
def ParsedElement.textContent : ParsedElement → Option String
  | .mk _ _ t _ => t

/-- Child elements. -/
def ParsedElement.children : ParsedElement → List ParsedElement
  | .mk _ _ _ cs => cs

/-! ### `handleCreateComponent` (`src/plugin/code.ts`, lines 50–101)

For the structural-failure claim only the order of effects matters: the
guard runs before the root frame is created and before any element is
synthesized.  Each node-creating effect is recorded as a step; the
synthesis of one element (`createFigmaNode`) is abstracted as a single
step standing for its whole subtree, which is never reached in the empty
case. -/

/-- One node-creating effect of `handleCreateComponent`. -/
inductive CreateStep where
  | rootFrame
  | elementSubtree (el : ParsedElement)

/-- Effect trace of `handleCreateComponent`: the list of node-creating
steps performed, in order, and the error message thrown (if any).  The
input is `none` when the payload carries no `elements` field (the falsy
`!elements` check). -/
def handleCreateComponentSteps (elements : Option (List ParsedElement)) :
    List CreateStep × Option String :=
  match elements with
  | none => ([], some "No valid HTML elements found")
  | some els =>
    if els.length = 0 then ([], some "No valid HTML elements found")
    else (CreateStep.rootFrame :: els.map CreateStep.elementSubtree, none)

/-! ### The deferred-sizing side table (`pendingLayoutSizing`) -/

/-- One entry of the `pendingLayoutSizing` WeakMap (lines 25–28); the
vertical intent is stored under the key `height` in the source. -/
structure PendingSizing where
  horizontal : Option LayoutSizing := none
  height : Option LayoutSizing := none
deriving DecidableEq, Repr

/-- `safeSetLayoutSizingHorizontal` (lines 31–37): the Figma setter
succeeds only when the node sits in an auto-layout parent, and the
failure is silently swallowed. -/
def safeSetLayoutSizingHorizontal (parentIsAutoLayout : Bool)
    (frame : FrameData) (v : LayoutSizing) : FrameData :=
  if parentIsAutoLayout then { frame with layoutSizingHorizontal := v } else frame

/-- `safeSetLayoutSizingVertical` (lines 40–46). -/
def safeSetLayoutSizingVertical (parentIsAutoLayout : Bool)
    (frame : FrameData) (v : LayoutSizing) : FrameData :=
  if parentIsAutoLayout then { frame with layoutSizingVertical := v } else frame

/-- Whether `'layoutMode' in parent && parent.layoutMode !== 'NONE'`
holds; `none` models a parent (group or page) without the field. -/
def parentAutoLayout : Option LayoutMode → Bool
  | some m => m ≠ LayoutMode.NONE
  | none => false

/-- The attachment step of `createFigmaNode` (lines 1003–1015): the frame
has just been appended to its parent, and its pending sizing record — if
the parent is an auto-layout frame — is applied through the safe setters.
Returns the updated frame together with the side table as it stands after
the step. -/
def attachApplyPending (tbl : List (ℕ × PendingSizing))
    (parentLayout : Option LayoutMode) (frameId : ℕ) (frame : FrameData) :
    FrameData × List (ℕ × PendingSizing) :=
  if parentAutoLayout parentLayout then
    match (tbl.find? (fun p => p.1 = frameId)).map Prod.snd with
    | some pending =>
      let f1 := match pending.horizontal with
        | some v => safeSetLayoutSizingHorizontal true frame v
        | none => frame
      let f2 := match pending.height with
        | some v => safeSetLayoutSizingVertical true f1 v
        | none => f1
      (f2, tbl)
    | none => (frame, tbl)
  else (frame, tbl)

/-! ### Font loading for text leaves (lines 744–759 and 1193–1208)

`figma.loadFontAsync` is the single external suspension point of the
pipeline; it is modelled by an availability oracle.  The first two tiers
are wrapped in try/catch; the third `loadFontAsync` call is not, so its
failure propagates out of `createFigmaNode` (which has no handler) up to
the message-level catch of `code.ts`. -/

/-- The three-tier font fallback for one text leaf: requested family with
the derived style, then Inter with the same style, then Inter Regular;
the third tier, when it too is unavailable, throws. -/
def loadLeafFont (avail : String → String → Bool) (family style : String) :
    Except String (String × String) :=
  if avail family style then .ok (family, style)
  else if avail "Inter" style then .ok ("Inter", style)
  else if avail "Inter" "Regular" then .ok ("Inter", "Regular")
  else .error "font load failed"

/-- Sequential synthesis of the text leaves of a tree: the loop over
children awaits each leaf in order, and an uncaught font error aborts the
remaining leaves and the whole operation. -/
def synthesizeTextLeaves (avail : String → String → Bool) :
    List (String × String) → Except String (List (String × String))
  | [] => .ok []
  | l :: rest =>
    match loadLeafFont avail l.1 l.2 with
    | .ok f =>
      match synthesizeTextLeaves avail rest with
      | .ok others => .ok (f :: others)
      | .error e => .error e
    | .error e => .error e

/-! ### The flex-grow distribution pass and nested recalculation -/

/-- A node of the synthesized Figma tree. -/
inductive FNode where
  | mk (data : FrameData) (children : List FNode)

/-- Field record of a tree node. -/
def FNode.data : FNode → FrameData
  | .mk d _ => d

/-- Children of a tree node. -/
def FNode.children : FNode → List FNode
  | .mk _ cs => cs

/-- Reserved names of synthetic spacer and wrapper boxes. -/
def isSpacerName (n : String) : Bool :=
  n = "spacer" || n = "margin-spacer" || n = "margin-wrapper"

/-- Reserved names of synthetic horizontal-margin boxes. -/
def isMarginSideName (n : String) : Bool :=
  n = "margin-left" || n = "margin-right"

/-- `recalculateNestedFlex` of `src/plugin/html-parser.ts` (lines
61–154), as a function of the node; the fuel argument only bounds the
recursion depth, which is bounded by the tree depth, and every theorem
below holds for every fuel value it quantifies over.  Phase 1
redistributes the width of a HORIZONTAL frame among its flex-grow
children; phase 2 widens SPACE_BETWEEN rows inside a VERTICAL frame;
phase 3 descends into the remaining children.  The function never
modifies the fields of the node it is given — only those of its
descendants. -/
def recalcNestedFlex : ℕ → FNode → ℚ → FNode
  | 0, node, _ => node
  | fuel + 1, .mk d cs, newWidth =>
    FNode.mk d <|
    if cs.isEmpty then cs
    else
      -- phase 1 (lines 65–110)
      let cs1 :=
        if d.layoutMode = .HORIZONTAL then
          let counted := cs.filter (fun c =>
            !(isSpacerName c.data.name || isMarginSideName c.data.name))
          let totalFlexGrow : ℚ := (counted.map (fun c =>
            match c.data.nestedGrow with
            | some g => if g > 0 then g else 0
            | none => 0)).sum
          let fixedSize : ℚ := (counted.map (fun c =>
            match c.data.nestedGrow with
            | some g => if g > 0 then 0 else c.data.width
            | none => c.data.width)).sum
          let gapCount := counted.length
          if totalFlexGrow > 0 then
            let totalGaps : ℚ :=
              if gapCount > 1 then ((gapCount : ℚ) - 1) * d.itemSpacing else 0
            let availableSpace := newWidth - d.paddingLeft - d.paddingRight - fixedSize - totalGaps
            if availableSpace > 0 then
              cs.map (fun c =>
                if isSpacerName c.data.name || isMarginSideName c.data.name then c
                else
                  match c.data.nestedGrow with
                  | some g =>
                    if g > 0 then
                      let calculatedSize := availableSpace * (g / totalFlexGrow)
                      -- the safe setter succeeds: the parent is HORIZONTAL
                      let resized := FNode.mk
                        { c.data with width := calculatedSize,
                                      layoutSizingHorizontal := .FIXED } c.children
                      if c.data.isFrame then recalcNestedFlex fuel resized calculatedSize
                      else resized
                    else c
                  | none => c)
            else cs
          else cs
        else cs
      -- phase 2 (lines 114–137); the MIN → SPACE_BETWEEN toggle that
      -- forces Figma to re-lay-out nets to SPACE_BETWEEN
      let cs2 :=
        if d.layoutMode = .VERTICAL then
          let contentWidth := newWidth - d.paddingLeft - d.paddingRight
          cs1.map (fun c =>
            if !c.data.isFrame then c
            else if isSpacerName c.data.name then c
            else if c.data.layoutMode = .HORIZONTAL ∧
                    c.data.primaryAxisAlignItems = .SPACE_BETWEEN then
              FNode.mk { c.data with width := contentWidth,
                                     layoutSizingHorizontal := .FIXED,
                                     primaryAxisSizingMode := .FIXED,
                                     primaryAxisAlignItems := .SPACE_BETWEEN } c.children
            else c)
        else cs1
      -- phase 3 (lines 141–153)
      let cs3 := cs2.map (fun c =>
        if !c.data.isFrame then c
        else if isSpacerName c.data.name then c
        else
          let skip : Bool :=
            match c.data.nestedGrow with
            | some g => decide (g > 0) && decide (d.layoutMode = .HORIZONTAL)
            | none => false
          if skip then c else recalcNestedFlex fuel c c.data.width)
      cs3

/-- Children counted by the distribution pass: neither absolutely
positioned nor a synthetic spacer/margin box (lines 1680–1682). -/
def isCountedChild (c : FNode) : Bool :=
  !(decide (c.data.layoutPositioning = .ABSOLUTE) ||
    isSpacerName c.data.name || isMarginSideName c.data.name)

/-- Number of counted children of a parent (the pass's `gapCount`). -/
def countedChildren (node : FNode) : ℕ :=
  (node.children.filter isCountedChild).length

/-- The pass's `totalFlexGrow`: sum of the positive ledger weights of the
counted children. -/
def ledgerTotalGrow (node : FNode) : ℚ :=
  ((node.children.filter isCountedChild).map (fun c =>
    match c.data.ledgerGrow with
    | some g => if g > 0 then g else 0
    | none => 0)).sum

/-- The pass's `fixedSize`: total main-axis size of the counted children
that carry no positive ledger weight. -/
def ledgerFixedSize (node : FNode) : ℚ :=
  let isHorizontal := node.data.layoutMode = LayoutMode.HORIZONTAL
  ((node.children.filter isCountedChild).map (fun c =>
    match c.data.ledgerGrow with
    | some g => if g > 0 then 0 else (if isHorizontal then c.data.width else c.data.height)
    | none => if isHorizontal then c.data.width else c.data.height)).sum

/-- The pass's `availableSpace`: container size (the stored intended
width, when present, on the horizontal axis) minus main-axis padding,
fixed child sizes and inter-child gaps. -/
def ledgerAvailable (node : FNode) : ℚ :=
  let d := node.data
  let isHorizontal := d.layoutMode = LayoutMode.HORIZONTAL
  let containerSize := if isHorizontal then d.intendedWidth.getD d.width else d.height
  let paddingStart := if isHorizontal then d.paddingLeft else d.paddingTop
  let paddingEnd := if isHorizontal then d.paddingRight else d.paddingBottom
  containerSize - paddingStart - paddingEnd - ledgerFixedSize node -
    ((countedChildren node : ℚ) - 1) * d.itemSpacing

/-- The per-child action of the distribution loop (lines 1704–1718): a
child registered in the ledger is resized on the main axis to its
proportional share of the available space and marked FIXED there (the
safe setter succeeds, the parent being an auto-layout frame); on the
horizontal axis its nested flex descendants are then re-resolved.
Unregistered children are untouched. -/
def flexResizeChild (fuel : ℕ) (node : FNode) (c : FNode) : FNode :=
  match c.data.ledgerGrow with
  | some flexGrow =>
    let calculatedSize := ledgerAvailable node * (flexGrow / ledgerTotalGrow node)
    if node.data.layoutMode = LayoutMode.HORIZONTAL then
      recalcNestedFlex fuel
        (FNode.mk { c.data with width := calculatedSize,
                                layoutSizingHorizontal := LayoutSizing.FIXED } c.children)
        calculatedSize
    else
      FNode.mk { c.data with height := calculatedSize,
                             layoutSizingVertical := LayoutSizing.FIXED } c.children
  | none => c

/-- The flex-grow proportional distribution pass of `createFigmaNode`
(lines 1669–1721).  The `flexGrowMap` ledger of the parent is carried by
the children's `ledgerGrow` fields; the pass recomputes each registered
child's main-axis size as its proportional share of the available space,
marks it FIXED on that axis (the safe setter succeeds, the parent being
an auto-layout frame here), and on the horizontal axis re-resolves the
child's nested flex descendants. -/
def flexDistribute (fuel : ℕ) (node : FNode) : FNode :=
  let d := node.data
  let cs := node.children
  if (cs.any (fun c => c.data.ledgerGrow.isSome)) ∧ d.layoutMode ≠ .NONE then
    if ledgerTotalGrow node > 0 ∧ countedChildren node > 1 then
      if ledgerAvailable node > 0 then
        FNode.mk d (cs.map (flexResizeChild fuel node))
      else node
    else node
  else node

/-! ### Stacking/ordering policy (lines 1323–1366 and 1445–1667)

The children of one container are partitioned into normal-flow and
absolutely positioned sets; the absolute set is sorted by
`(zIndex ?? 0, original index)` — the comparator of the source's
`Array.prototype.sort` is a strict total order on the list (original
indices are distinct), so any stable sort returns exactly its result —
and split at the z-index threshold 1.  Creation order is then: the
below-threshold absolutes, the normal-flow children (with the children
collected by the relative-offset pass re-appended at the end of the flow
block by the move-to-front step, before the overlay absolutes exist),
and the at-or-above-threshold absolutes. -/

/-- `position: absolute` or `position: fixed` (line 1330). -/
def isAbsoluteChild (st : ParsedStyle) : Bool :=
  st.position = some PositionKind.absolute || st.position = some PositionKind.fixed

/-- `zIndex ?? 0` (lines 1344–1345, 1360). -/
def zIndexOf (st : ParsedStyle) : ℚ :=
  st.zIndex.getD 0

/-- The sort order of the absolute children: ascending z-index, ties in
ascending original index (lines 1343–1350). -/
def absLE (a b : ℕ × ParsedElement) : Prop :=
  zIndexOf a.2.styles < zIndexOf b.2.styles ∨
    (zIndexOf a.2.styles = zIndexOf b.2.styles ∧ a.1 ≤ b.1)

instance : DecidableRel absLE := fun a b => by
  unfold absLE; exact inferInstance

instance : IsTotal (ℕ × ParsedElement) absLE where
  total a b := by
    unfold absLE
    rcases lt_trichotomy (zIndexOf a.2.styles) (zIndexOf b.2.styles) with h | h | h
    · exact Or.inl (Or.inl h)
    · rcases Nat.le_total a.1 b.1 with h2 | h2
      · exact Or.inl (Or.inr ⟨h, h2⟩)
      · exact Or.inr (Or.inr ⟨h.symm, h2⟩)
    · exact Or.inr (Or.inl h)

instance : IsTrans (ℕ × ParsedElement) absLE where
  trans a b c hab hbc := by
    unfold absLE at *
    rcases hab with h1 | ⟨e1, l1⟩
    · rcases hbc with h2 | ⟨e2, l2⟩
      · exact Or.inl (h1.trans h2)
      · exact Or.inl (e2 ▸ h1)
    · rcases hbc with h2 | ⟨e2, l2⟩
      · exact Or.inl (e1 ▸ h2)
      · exact Or.inr ⟨e1.trans e2, l1.trans l2⟩

/-- The margin-shorthand expansion applied to each regular child before
branch selection (lines 1454–1458). -/
def expandMarginShorthand (st : ParsedStyle) : ParsedStyle :=
  match st.margin with
  | some m =>
    { st with marginTop := some (st.marginTop.getD (MarginVal.num m)),
              marginRight := some (st.marginRight.getD (MarginVal.num m)),
              marginBottom := some (st.marginBottom.getD (MarginVal.num m)),
              marginLeft := some (st.marginLeft.getD (MarginVal.num m)) }
  | none => st

/-- Whether the regular-children loop collects a child for the
relative-offset pass (lines 1501, 1546, 1566–1571): only the plain
creation branch collects, and only `position: relative` children with at
least one edge offset. -/
def collectedRelative (frameLayout : LayoutMode) (st0 : ParsedStyle) : Bool :=
  let st := expandMarginShorthand st0
  let marginLeft : ℚ := match st.marginLeft with | some (.num v) => v | _ => 0
  let marginRight : ℚ := match st.marginRight with | some (.num v) => v | _ => 0
  let hasHorizontalMargin := marginLeft > 0 || marginRight > 0
  if frameLayout = LayoutMode.VERTICAL && hasHorizontalMargin then false
  else if frameLayout = LayoutMode.NONE && hasHorizontalMargin then false
  else
    st.position = some PositionKind.relative &&
      (st.top.isSome || st.left.isSome || st.bottom.isSome || st.right.isSome)

/-- The `regularChildren` partition of lines 1325–1339, tagged with
original indices. -/
def regularEntries (children : List ParsedElement) : List (ℕ × ParsedElement) :=
  children.enum.filter (fun p => !isAbsoluteChild p.2.styles)

/-- The `absoluteChildren` partition of lines 1325–1339. -/
def absoluteEntries (children : List ParsedElement) : List (ℕ × ParsedElement) :=
  children.enum.filter (fun p => isAbsoluteChild p.2.styles)

/-- The sorted absolute children (lines 1343–1350). -/
def sortedAbsolute (children : List ParsedElement) : List (ℕ × ParsedElement) :=
  (absoluteEntries children).insertionSort absLE

/-- `absoluteBeforeContent` (lines 1356–1366): z-index below 1. -/
def beforeEntries (children : List ParsedElement) : List (ℕ × ParsedElement) :=
  (sortedAbsolute children).filter (fun p => decide (zIndexOf p.2.styles < 1))

/-- `absoluteAfterContent` (lines 1356–1366): z-index at or above 1. -/
def afterEntries (children : List ParsedElement) : List (ℕ × ParsedElement) :=
  (sortedAbsolute children).filter (fun p => !decide (zIndexOf p.2.styles < 1))

/-- The normal-flow block after the relative-offset move-to-front pass
(lines 1451–1661): collected relative children are re-appended at the end
of the flow block, before the overlay absolutes exist. -/
def flowEntries (frameLayout : LayoutMode) (children : List ParsedElement) :
    List (ℕ × ParsedElement) :=
  (regularEntries children).filter
      (fun p => !collectedRelative frameLayout p.2.styles) ++
    (regularEntries children).filter (fun p => collectedRelative frameLayout p.2.styles)

/-- Final order — as original child indices — in which the element
children of one container appear in the parent's child list (synthetic
spacer/wrapper/placeholder boxes aside; a child built through the
margin-wrapper branch is represented by its wrapper's slot): the
background absolutes, then the normal-flow block, then the overlay
absolutes. -/
def insertionOrder (frameLayout : LayoutMode) (children : List ParsedElement) :
    List ℕ :=
  (beforeEntries children ++ flowEntries frameLayout children ++
    afterEntries children).map Prod.fst

/-! ### Specification-side predicates for the color claims -/

/-- A channel holds a finite number in the unit interval. -/
def chanIn01 (ch : JsNum) : Prop :=
  match ch with
  | some q => 0 ≤ q ∧ q ≤ 1
  | none => False

/-- An optional alpha capture parses to a finite value in the unit
interval (`none`: the group is absent and alpha defaults to 1). -/
def alphaCapIn01 (cap : Option (List Char)) : Prop :=
  match cap with
  | none => True
  | some av => ∃ q, jsParseFloat av = some q ∧ 0 ≤ q ∧ q ≤ 1

/-- CSS-range side condition on a color string, following the branch that
`parseColor` takes: functional rgb/rgba channels at most 255 with alpha
in 0–1; functional hsl/hsla numeric components finite (not NaN) with
alpha in 0–1; hex and named colors need no condition. -/
def normalizedColorInput (cs : List Char) : Prop :=
  match (matchHexColor cs).bind hexColorValue with
  | some _ => True
  | none =>
    match scan rgbAt cs with
    | some (d1, d2, d3, aCap) => d1 ≤ 255 ∧ d2 ≤ 255 ∧ d3 ≤ 255 ∧ alphaCapIn01 aCap
    | none =>
      match scan hslAt cs with
      | some (hv, sv, lv, aCap) =>
        (jsParseFloat hv).isSome ∧ (jsParseFloat sv).isSome ∧
          (jsParseFloat lv).isSome ∧ alphaCapIn01 aCap
      | none => True

/-! ### Concrete instances used by the theorems -/

/-- A flex child registered in its parent's distribution ledger with
weight `g`, initially FILL on the vertical (growth) axis. -/
def flexChild (g : ℚ) : FNode :=
  .mk { name := "div", layoutSizingVertical := LayoutSizing.FILL,
        ledgerGrow := some g, width := 50, height := 30 } []

/-- A vertical container of height 400 (no padding, no gap) holding three
flex children with weights 1, 1, 2: its available space is 400. -/
def exampleFlexParent : FNode :=
  .mk { name := "div", layoutMode := LayoutMode.VERTICAL, height := 400 }
     [flexChild 1, flexChild 1, flexChild 2]

/-- A vertical container with exactly one counted child, which carries a
positive flexible-growth weight. -/
def exampleSingleFlexParent : FNode :=
  .mk { name := "div", layoutMode := LayoutMode.VERTICAL, height := 400 }
     [flexChild 5]

/-- Width 200, uniform padding 20, and a scale transform of 2. -/
def scaledBoxStyle : ParsedStyle :=
  { width := some (.num 200), padding := some 20, scaleX := some 2 }

/-- Width 200, height 200, uniform padding 20 (the round-trip example). -/
def plainBoxStyle : ParsedStyle :=
  { width := some (.num 200), height := some (.num 200), padding := some 20 }

/-- A pending sizing record with intents on both axes. -/
def examplePending : PendingSizing :=
  { horizontal := some LayoutSizing.FILL, height := some LayoutSizing.HUG }

/-- A side table holding `examplePending` for box 0. -/
def examplePendingTable : List (ℕ × PendingSizing) := [(0, examplePending)]

/-- A font environment in which no font whatsoever loads. -/
def noFonts : String → String → Bool := fun _ _ => false

/-- A font environment in which only the Inter family loads. -/
def interOnlyFonts : String → String → Bool := fun f _ => f = "Inter"

/-- An absolutely positioned child with the given z-index. -/
def exampleAbsEl (z : ℚ) : ParsedElement :=
  .mk "div" { position := some PositionKind.absolute, zIndex := some z } none []

/-- A plain normal-flow child. -/
def exampleNormEl : ParsedElement := .mk "div" {} none []

/-- Two absolute children with z-index 0 and 2 plus one normal-flow
child, in document order. -/
def exampleStackChildren : List ParsedElement :=
  [exampleAbsEl 0, exampleAbsEl 2, exampleNormEl]

/-- A frame with all default field values. -/
def defaultFrame : FrameData := {}

/-! ## Theorems -/

/-- C4: a synthesis request whose element list is absent or empty fails
with the "no elements" structural error and an empty effect trace: the
error is raised before the root frame or any other node is created, so no
partial output exists. -/
theorem handleCreateComponent_empty_rejected_before_creation :
    handleCreateComponentSteps none = ([], some "No valid HTML elements found") ∧
    handleCreateComponentSteps (some []) = ([], some "No valid HTML elements found") :=
  ⟨rfl, rfl⟩

/-- C9: the restricted two-operand calc() evaluator returns "not
recognized" (null) whenever the operator is division and the right
operand evaluates to zero — it neither raises nor produces a number. -/
theorem parseCalc_division_by_zero (s : String) (base : ℚ)
    (expr n1 n2 : List Char) (u1 u2 : Option LenUnit)
    (hbody : matchCalcBody s.data = some expr)
    (hbin : matchBinary expr = some (n1, u1, '/', n2, u2))
    (hzero : calcToPx (jsParseFloat n2) u2 base = some 0) :
    parseCalc s base = none := by
  unfold parseCalc parseCalcFuel
  rw [hbody]
  dsimp only
  rw [hbin]
  dsimp only
  simp [hzero]

/-- Witness for the division-by-zero theorem at `calc(100px / 0)`. -/
theorem parseCalc_division_by_zero_witness :
    parseCalc "calc(100px / 0)" 16 = none := by
  refine parseCalc_division_by_zero _ 16
    "100px / 0".data "100".data "0".data (some .px) none rfl rfl ?_
  simp [calcToPx, jsParseFloat, digitsVal]

/-- The width section resizes an explicit numeric width to content size
plus horizontal padding, whatever the incoming frame state. -/
theorem applyWidthSection_num (styles : ParsedStyle) (f : FrameData)
    (pw : Option ℚ) (w : ℚ) (hw : styles.width = some (.num w)) :
    (applyWidthSection styles f pw).width = w + widthPaddingOf styles := by
  unfold applyWidthSection
  rw [hw]
  dsimp only
  split_ifs <;> rfl

/-- The height section never changes the width. -/
theorem applyHeightSection_width (styles : ParsedStyle) (f : FrameData) :
    (applyHeightSection styles f).width = f.width := by
  unfold applyHeightSection
  rcases styles.height with _ | d
  · rfl
  · cases d
    · dsimp only; split_ifs <;> rfl
    · rfl
    · rfl

/-- The height section resizes an explicit numeric height to content
size plus vertical padding. -/
theorem applyHeightSection_num (styles : ParsedStyle) (f : FrameData)
    (h : ℚ) (hh : styles.height = some (.num h)) :
    (applyHeightSection styles f).height = h + heightPaddingOf styles := by
  unfold applyHeightSection
  rw [hh]
  dsimp only
  split_ifs <;> rfl

/-- The padding section never changes width or height. -/
theorem applyPaddingSection_size (styles : ParsedStyle) (f : FrameData) :
    (applyPaddingSection styles f).width = f.width ∧
    (applyPaddingSection styles f).height = f.height := by
  unfold applyPaddingSection
  rcases styles.padding with _ | p <;>
    rcases styles.paddingTop with _ | a <;>
    rcases styles.paddingRight with _ | b <;>
    rcases styles.paddingBottom with _ | c <;>
    rcases styles.paddingLeft with _ | d <;>
    exact ⟨rfl, rfl⟩

/-- Without a declared scale transform, the scale section is the
identity. -/
theorem applyScaleSection_id (styles : ParsedStyle) (f : FrameData)
    (hx : styles.scaleX = none) (hy : styles.scaleY = none) :
    applyScaleSection styles f = f := by
  unfold applyScaleSection
  rw [hx, hy]
  rfl

/-- The text-align section never changes width or height. -/
theorem applyTextAlignSection_size (styles : ParsedStyle) (f : FrameData) :
    (applyTextAlignSection styles f).width = f.width ∧
    (applyTextAlignSection styles f).height = f.height := by
  unfold applyTextAlignSection
  rcases styles.textAlign with _ | ta
  · exact ⟨rfl, rfl⟩
  · cases ta <;> (dsimp only; split_ifs <;> exact ⟨rfl, rfl⟩)

/-- C2 (amended): whenever width (resp. height) is declared as a
concrete number and no scale transform is declared, the box produced by
the style-application step has, on that axis, exactly the declared
content size plus the padding on both sides of the axis (the uniform
shorthand counting twice).  Later passes can still resize the box — a
declared scale multiplies the result (the counterexample below), and the
parent's flex distribution pass overwrites the size of a child that also
carries a positive flex-grow weight. -/
theorem applyFrameStyles_content_box (styles : ParsedStyle) (frame : FrameData)
    (pw : Option ℚ) (hsx : styles.scaleX = none) (hsy : styles.scaleY = none) :
    (∀ w, styles.width = some (.num w) →
      (applyFrameStyles styles frame pw).width = w + widthPaddingOf styles) ∧
    (∀ h, styles.height = some (.num h) →
      (applyFrameStyles styles frame pw).height = h + heightPaddingOf styles) := by
  unfold applyFrameStyles
  rw [applyScaleSection_id styles _ hsx hsy]
  constructor
  · intro w hw
    rw [(applyTextAlignSection_size styles _).1, (applyPaddingSection_size styles _).1,
        applyHeightSection_width, applyWidthSection_num styles _ pw w hw]
  · intro h hh
    rw [(applyTextAlignSection_size styles _).2, (applyPaddingSection_size styles _).2,
        applyHeightSection_num styles _ h hh]

/-- Witness: the round-trip example — explicit width 200 and height 200
with uniform padding 20 synthesize a 240 × 240 box. -/
theorem applyFrameStyles_content_box_witness :
    (applyFrameStyles plainBoxStyle defaultFrame none).width = 240 ∧
    (applyFrameStyles plainBoxStyle defaultFrame none).height = 240 := by
  obtain ⟨hw, hh⟩ := applyFrameStyles_content_box plainBoxStyle defaultFrame none rfl rfl
  refine ⟨?_, ?_⟩
  · rw [hw 200 rfl]; norm_num [widthPaddingOf, plainBoxStyle]
  · rw [hh 200 rfl]; norm_num [heightPaddingOf, plainBoxStyle]

/-- With a declared horizontal scale the scale section multiplies the
width. -/
theorem applyScaleSection_width_scaled (styles : ParsedStyle) (f : FrameData)
    (sx : ℚ) (hx : styles.scaleX = some sx) :
    (applyScaleSection styles f).width = f.width * sx := by
  unfold applyScaleSection
  rw [hx]
  rfl

/-- C2 counterexample: an element with explicit width 200 and uniform
padding 20 that also declares a scale transform of 2 synthesizes a box of
width 480, not 240 — the claim's universal statement fails on the code. -/
theorem applyFrameStyles_content_box_counterexample :
    (applyFrameStyles scaledBoxStyle defaultFrame none).width = 480 ∧
    (480 : ℚ) ≠ 240 := by
  constructor
  · unfold applyFrameStyles
    rw [(applyTextAlignSection_size scaledBoxStyle _).1,
        applyScaleSection_width_scaled scaledBoxStyle _ 2 rfl,
        (applyPaddingSection_size scaledBoxStyle _).1,
        applyHeightSection_width,
        applyWidthSection_num scaledBoxStyle _ none 200 rfl]
    norm_num [widthPaddingOf, scaledBoxStyle]
  · norm_num

/-- C5 counterexample: after the attach step the sizing intent has been
applied to the box, but the side table still holds the box's record — it
is not cleared, contradicting the claim that the record is applied and
then cleared from the table. -/
theorem pendingRecord_not_cleared_counterexample :
    (attachApplyPending examplePendingTable (some LayoutMode.VERTICAL) 0
        defaultFrame).1.layoutSizingHorizontal = LayoutSizing.FILL ∧
    (attachApplyPending examplePendingTable (some LayoutMode.VERTICAL) 0
        defaultFrame).2 = examplePendingTable ∧
    ((examplePendingTable.find? (fun p => p.1 = 0)).map Prod.snd) = some examplePending :=
  ⟨rfl, rfl, rfl⟩

/-- C5 (amended): when a box is attached to an auto-layout parent, its
pending sizing record is read from the side table and each present axis
intent is applied through the safe setters — but the table entry is not
removed: the table after the step is exactly the table before it.  (The
entry stays until the box itself is collected; this is harmless because
each box is attached exactly once.) -/
theorem pendingRecord_applied_at_attach (tbl : List (ℕ × PendingSizing))
    (pl : Option LayoutMode) (bid : ℕ) (frame : FrameData) (p : PendingSizing)
    (hauto : parentAutoLayout pl = true)
    (hlook : (tbl.find? (fun q => q.1 = bid)).map Prod.snd = some p) :
    (attachApplyPending tbl pl bid frame).1.layoutSizingHorizontal
        = p.horizontal.getD frame.layoutSizingHorizontal ∧
    (attachApplyPending tbl pl bid frame).1.layoutSizingVertical
        = p.height.getD frame.layoutSizingVertical ∧
    (attachApplyPending tbl pl bid frame).2 = tbl := by
  unfold attachApplyPending
  rw [hauto]
  simp only [if_true]
  rw [hlook]
  obtain ⟨ph, pv⟩ := p
  cases ph <;> cases pv <;>
    simp [safeSetLayoutSizingHorizontal, safeSetLayoutSizingVertical]

/-- Witness for the amended attach-step theorem at the concrete table. -/
theorem pendingRecord_applied_at_attach_witness :
    parentAutoLayout (some LayoutMode.VERTICAL) = true ∧
    (attachApplyPending examplePendingTable (some LayoutMode.VERTICAL) 0
        defaultFrame).1.layoutSizingHorizontal
      = examplePending.horizontal.getD defaultFrame.layoutSizingHorizontal ∧
    (attachApplyPending examplePendingTable (some LayoutMode.VERTICAL) 0
        defaultFrame).2 = examplePendingTable := by
  have h := pendingRecord_applied_at_attach examplePendingTable
    (some LayoutMode.VERTICAL) 0 defaultFrame examplePending rfl rfl
  exact ⟨rfl, h.1, h.2.2⟩

/-- C8 (amended): font loading for a text leaf tries exactly three tiers
in order — requested family with the derived style, then Inter with the
same style, then Inter Regular.  Failure of the first two tiers is caught
and falls through; failure of the third tier is uncaught, and the error
aborts the remaining leaves and with them the whole synthesis. -/
theorem fontFallback_three_tiers (avail : String → String → Bool)
    (family style : String) :
    (avail family style = true →
      loadLeafFont avail family style = .ok (family, style)) ∧
    (avail family style = false → avail "Inter" style = true →
      loadLeafFont avail family style = .ok ("Inter", style)) ∧
    (avail family style = false → avail "Inter" style = false →
      avail "Inter" "Regular" = true →
      loadLeafFont avail family style = .ok ("Inter", "Regular")) ∧
    (avail family style = false → avail "Inter" style = false →
      avail "Inter" "Regular" = false →
      loadLeafFont avail family style = .error "font load failed") ∧
    (∀ e rest, loadLeafFont avail family style = .error e →
      synthesizeTextLeaves avail ((family, style) :: rest) = .error e) := by
  refine ⟨?_, ?_, ?_, ?_, ?_⟩
  · intro h1; simp [loadLeafFont, h1]
  · intro h1 h2; simp [loadLeafFont, h1, h2]
  · intro h1 h2 h3; simp [loadLeafFont, h1, h2, h3]
  · intro h1 h2 h3; simp [loadLeafFont, h1, h2, h3]
  · intro e rest h
    simp only [synthesizeTextLeaves]
    rw [h]

/-- Witness for the fallback tiers: Arial Bold falls back to Inter Bold
in an environment where only Inter loads. -/
theorem fontFallback_three_tiers_witness :
    interOnlyFonts "Arial" "Bold" = false ∧ interOnlyFonts "Inter" "Bold" = true ∧
    loadLeafFont interOnlyFonts "Arial" "Bold" = .ok ("Inter", "Bold") :=
  ⟨rfl, rfl, (fontFallback_three_tiers interOnlyFonts "Arial" "Bold").2.1 rfl rfl⟩

/-- C8 counterexample: when all three tiers fail for the first leaf, the
synthesis of the remaining leaves does not complete — the whole operation
ends in the propagated error, contradicting the claim that failure of all
tiers is fatal only for that one leaf. -/
theorem fontFallback_abort_counterexample :
    loadLeafFont noFonts "Arial" "Bold" = .error "font load failed" ∧
    synthesizeTextLeaves noFonts [("Arial", "Bold"), ("Inter", "Regular")]
      = .error "font load failed" :=
  ⟨rfl, rfl⟩

/-- C10: the proportional flex-distribution pass runs only when more than
one counted child exists (children that are neither absolutely positioned
nor synthetic spacer/margin boxes); with exactly one counted child — even
one carrying a positive flexible-growth weight — the pass leaves the
parent and every child, including its sizes and per-axis sizing modes,
unchanged. -/
theorem flexDistribute_skips_single_counted_child (fuel : ℕ) (node : FNode)
    (h : countedChildren node = 1) :
    flexDistribute fuel node = node := by
  simp only [flexDistribute]
  split_ifs with h1 h2 h3 <;> first | rfl | exact absurd h2.2 (by omega)

/-- Witness: a parent with a single flex child of weight 5 is untouched
by the distribution pass. -/
theorem flexDistribute_skips_single_counted_child_witness :
    countedChildren exampleSingleFlexParent = 1 ∧
    flexDistribute 1 exampleSingleFlexParent = exampleSingleFlexParent :=
  ⟨by decide, flexDistribute_skips_single_counted_child 1 _ (by decide)⟩

/-- Field record of a constructed node. -/
theorem FNode_data_mk (d : FrameData) (cs : List FNode) :
    (FNode.mk d cs).data = d := rfl

/-- Children of a constructed node. -/
theorem FNode_children_mk (d : FrameData) (cs : List FNode) :
    (FNode.mk d cs).children = cs := rfl

/-- The nested recalculation never modifies the fields of the node it is
handed — only those of its descendants. -/
theorem recalcNestedFlex_data (fuel : ℕ) (n : FNode) (w : ℚ) :
    (recalcNestedFlex fuel n w).data = n.data := by
  cases fuel with
  | zero => rfl
  | succ fuel => cases n with | mk d cs => rfl

/-- C1: when the distribution pass fires (registered flexible children,
more than one counted child, positive available space), every child
registered in the ledger with weight w is resized on the growth axis to
exactly availableSpace × (w / totalWeight) and switched to FIXED sizing
on that axis; available space is the container content size minus
non-flexible child sizes minus total inter-child gaps. -/
theorem flexDistribute_proportional (fuel : ℕ) (node : FNode) (k : ℕ)
    (hk : k < node.children.length) (w : ℚ)
    (hmode : node.data.layoutMode ≠ LayoutMode.NONE)
    (hw : (node.children.get ⟨k, hk⟩).data.ledgerGrow = some w)
    (htotal : 0 < ledgerTotalGrow node)
    (hgap : 1 < countedChildren node)
    (havail : 0 < ledgerAvailable node) :
    ∃ hk2 : k < (flexDistribute fuel node).children.length,
      ((if node.data.layoutMode = LayoutMode.HORIZONTAL then
          ((flexDistribute fuel node).children.get ⟨k, hk2⟩).data.width
        else
          ((flexDistribute fuel node).children.get ⟨k, hk2⟩).data.height)
        = ledgerAvailable node * (w / ledgerTotalGrow node)) ∧
      ((if node.data.layoutMode = LayoutMode.HORIZONTAL then
          ((flexDistribute fuel node).children.get ⟨k, hk2⟩).data.layoutSizingHorizontal
        else
          ((flexDistribute fuel node).children.get ⟨k, hk2⟩).data.layoutSizingVertical)
        = LayoutSizing.FIXED) := by
  have hw2 : node.children[k].data.ledgerGrow = some w := by
    simpa using hw
  have hany : (node.children.any fun c => c.data.ledgerGrow.isSome) = true := by
    refine List.any_eq_true.mpr ⟨node.children.get ⟨k, hk⟩, node.children.get_mem _ _, ?_⟩
    rw [hw]; rfl
  have hfire : flexDistribute fuel node
      = FNode.mk node.data (node.children.map (flexResizeChild fuel node)) := by
    simp only [flexDistribute]
    rw [if_pos (And.intro hany hmode), if_pos (And.intro htotal hgap), if_pos havail]
  rw [hfire]
  have hk2 : k < (FNode.mk node.data
      (node.children.map (flexResizeChild fuel node))).children.length := by
    simpa [FNode_children_mk] using hk
  refine ⟨hk2, ?_, ?_⟩ <;>
    by_cases hH : node.data.layoutMode = LayoutMode.HORIZONTAL <;>
      simp [hH, FNode_children_mk, List.get_eq_getElem, List.getElem_map,
        flexResizeChild, hw2, recalcNestedFlex_data, FNode_data_mk]

/-- Synthetic-name and positioning facts about the example flex child. -/
theorem flexChild_counted (g : ℚ) : isCountedChild (flexChild g) = true := rfl

/-- The example flex child carries ledger weight g. -/
theorem flexChild_grow (g : ℚ) : (flexChild g).data.ledgerGrow = some g := rfl

/-- Witness: in the weight-{1,1,2} / available-400 configuration the
weight-2 child is resized to exactly 200 on the growth (vertical) axis
and switched to FIXED there. -/
theorem flexDistribute_proportional_witness :
    ∃ hk2 : 2 < (flexDistribute 1 exampleFlexParent).children.length,
      ((flexDistribute 1 exampleFlexParent).children.get ⟨2, hk2⟩).data.height = 200 ∧
      ((flexDistribute 1 exampleFlexParent).children.get ⟨2, hk2⟩).data.layoutSizingVertical
        = LayoutSizing.FIXED := by
  have havail : ledgerAvailable exampleFlexParent = 400 := by
    simp [ledgerAvailable, ledgerFixedSize, countedChildren, exampleFlexParent,
      List.filter_cons, flexChild_counted, flexChild_grow, FNode_data_mk, FNode_children_mk]
  have htotal : ledgerTotalGrow exampleFlexParent = 4 := by
    simp [ledgerTotalGrow, exampleFlexParent, List.filter_cons, flexChild_counted,
      flexChild_grow, FNode_children_mk]
    norm_num
  obtain ⟨hk2, hsize, hfixed⟩ := flexDistribute_proportional 1 exampleFlexParent 2
    (by decide) 2 (by decide) rfl (by rw [htotal]; norm_num)
    (by decide) (by rw [havail]; norm_num)
  rw [if_neg (by decide : ¬(exampleFlexParent.data.layoutMode = LayoutMode.HORIZONTAL))]
    at hsize hfixed
  refine ⟨hk2, ?_, hfixed⟩
  rw [hsize, havail, htotal]
  norm_num

/-- In a list whose first components are distinct, an entry is determined
by its first component. -/
theorem fst_inj_of_nodup {l : List (ℕ × ParsedElement)}
    (hnd : (l.map Prod.fst).Nodup) {a b : ℕ × ParsedElement}
    (ha : a ∈ l) (hb : b ∈ l) (h : a.1 = b.1) : a = b :=
  List.inj_on_of_nodup_map hnd ha hb h

/-- In a list pairwise ordered by the absolute-children comparator and
with distinct first components, an entry with strictly smaller key sits
at a strictly smaller index of the projected index list. -/
theorem indexOf_fst_lt_of_pairwise (l : List (ℕ × ParsedElement))
    (hpw : l.Pairwise absLE) (hnd : (l.map Prod.fst).Nodup)
    (a b : ℕ × ParsedElement) (ha : a ∈ l) (hb : b ∈ l)
    (hstrict : zIndexOf a.2.styles < zIndexOf b.2.styles ∨
      (zIndexOf a.2.styles = zIndexOf b.2.styles ∧ a.1 < b.1)) :
    List.indexOf a.1 (l.map Prod.fst) < List.indexOf b.1 (l.map Prod.fst) := by
  induction l with
  | nil => simp at ha
  | cons p t ih =>
    rw [List.pairwise_cons] at hpw
    obtain ⟨hp, hpt⟩ := hpw
    rw [List.map_cons, List.nodup_cons] at hnd
    obtain ⟨hndh, hndt⟩ := hnd
    have hne : a ≠ b := by
      rintro rfl
      rcases hstrict with h | ⟨_, h⟩ <;> exact absurd h (lt_irrefl _)
    rcases List.mem_cons.mp ha with h₁ | h₁ <;> rcases List.mem_cons.mp hb with h₂ | h₂
    · exact absurd (h₁.trans h₂.symm) hne
    · subst h₁
      have hbne : a.1 ≠ b.1 := by
        intro h
        exact hndh (h ▸ List.mem_map_of_mem Prod.fst h₂)
      rw [List.map_cons, List.indexOf_cons_self,
        List.indexOf_cons_ne _ (Ne.symm hbne).symm]
      exact Nat.succ_pos _
    · subst h₂
      have hba : absLE b a := hp a h₁
      rcases hba with h3 | ⟨h3, h4⟩ <;> rcases hstrict with h5 | ⟨h5, h6⟩
      · exact absurd h5 (not_lt_of_lt h3)
      · rw [h5] at h3; exact absurd h3 (lt_irrefl _)
      · rw [h3] at h5; exact absurd h5 (lt_irrefl _)
      · omega
    · have hane : p.1 ≠ a.1 := by
        intro h
        exact hndh (h ▸ List.mem_map_of_mem Prod.fst h₁)
      have hbne : p.1 ≠ b.1 := by
        intro h
        exact hndh (h ▸ List.mem_map_of_mem Prod.fst h₂)
      rw [List.map_cons, List.indexOf_cons_ne _ hane, List.indexOf_cons_ne _ hbne]
      exact Nat.succ_lt_succ (ih hpt hndt h₁ h₂)

/-- An index/element pair of the child list belongs to the enumerated
entries. -/
theorem mem_enum_of_getElem {cs : List ParsedElement} {i : ℕ} {ei : ParsedElement}
    (h : cs[i]? = some ei) : (i, ei) ∈ cs.enum :=
  List.mk_mem_enum_iff_getElem?.mpr h

/-- The projected index list of the sorted absolute entries has no
duplicates. -/
theorem nodup_fst_sortedAbsolute (cs : List ParsedElement) :
    ((sortedAbsolute cs).map Prod.fst).Nodup := by
  have h1 : (cs.enum.map Prod.fst).Nodup := List.nodup_enum_map_fst cs
  have h2 : ((absoluteEntries cs).map Prod.fst).Nodup :=
    h1.sublist ((List.filter_sublist _).map Prod.fst)
  exact (((List.perm_insertionSort absLE (absoluteEntries cs)).map Prod.fst).nodup_iff).mpr h2

/-- The sorted absolute entries are pairwise ordered by the comparator. -/
theorem pairwise_sortedAbsolute (cs : List ParsedElement) :
    (sortedAbsolute cs).Pairwise absLE :=
  List.sorted_insertionSort absLE (absoluteEntries cs)

/-- An absolute child's entry is among the sorted absolute entries. -/
theorem mem_sortedAbsolute {cs : List ParsedElement} {i : ℕ} {ei : ParsedElement}
    (h : cs[i]? = some ei) (habs : isAbsoluteChild ei.styles = true) :
    (i, ei) ∈ sortedAbsolute cs :=
  (List.perm_insertionSort absLE (absoluteEntries cs)).mem_iff.mpr
    (List.mem_filter.mpr ⟨mem_enum_of_getElem h, habs⟩)

/-- Every sorted absolute entry comes from the child list and is
absolutely positioned. -/
theorem sortedAbsolute_spec {cs : List ParsedElement} {p : ℕ × ParsedElement}
    (hp : p ∈ sortedAbsolute cs) :
    cs[p.1]? = some p.2 ∧ isAbsoluteChild p.2.styles = true := by
  have h := (List.perm_insertionSort absLE (absoluteEntries cs)).mem_iff.mp hp
  obtain ⟨henum, hcond⟩ := List.mem_filter.mp h
  obtain ⟨pi, pe⟩ := p
  exact ⟨List.mk_mem_enum_iff_getElem?.mp henum, hcond⟩

/-- Every flow entry comes from the child list and is in normal flow. -/
theorem flowEntries_spec {L : LayoutMode} {cs : List ParsedElement}
    {p : ℕ × ParsedElement} (hp : p ∈ flowEntries L cs) :
    cs[p.1]? = some p.2 ∧ isAbsoluteChild p.2.styles = false := by
  have hreg : p ∈ regularEntries cs := by
    rcases List.mem_append.mp hp with h | h <;> exact (List.mem_filter.mp h).1
  obtain ⟨henum, hcond⟩ := List.mem_filter.mp hreg
  obtain ⟨pi, pe⟩ := p
  refine ⟨List.mk_mem_enum_iff_getElem?.mp henum, ?_⟩
  simpa using hcond

/-- A normal-flow child's index is among the flow indices. -/
theorem fst_mem_flow {L : LayoutMode} {cs : List ParsedElement} {j : ℕ}
    {ej : ParsedElement} (h : cs[j]? = some ej)
    (hreg : isAbsoluteChild ej.styles = false) :
    j ∈ (flowEntries L cs).map Prod.fst := by
  have hmem : (j, ej) ∈ regularEntries cs :=
    List.mem_filter.mpr ⟨mem_enum_of_getElem h, by simp [hreg]⟩
  refine List.mem_map.mpr ⟨(j, ej), ?_, rfl⟩
  by_cases hc : collectedRelative L ej.styles
  · exact List.mem_append.mpr (Or.inr (List.mem_filter.mpr ⟨hmem, by simp [hc]⟩))
  · exact List.mem_append.mpr (Or.inl (List.mem_filter.mpr ⟨hmem, by simp [hc]⟩))

/-- An absolutely positioned child's index never occurs among the flow
indices. -/
theorem fst_not_mem_flow {L : LayoutMode} {cs : List ParsedElement} {i : ℕ}
    {ei : ParsedElement} (h : cs[i]? = some ei)
    (habs : isAbsoluteChild ei.styles = true) :
    i ∉ (flowEntries L cs).map Prod.fst := by
  intro hmem
  obtain ⟨p, hp, hpi⟩ := List.mem_map.mp hmem
  obtain ⟨hget, hflow⟩ := flowEntries_spec hp
  rw [hpi, h] at hget
  rw [← Option.some.inj hget] at hflow
  rw [habs] at hflow
  simp at hflow

/-- A normal-flow child's index never occurs among the background or
overlay absolute indices. -/
theorem fst_not_mem_absGroups {cs : List ParsedElement} {j : ℕ}
    {ej : ParsedElement} (h : cs[j]? = some ej)
    (hreg : isAbsoluteChild ej.styles = false) :
    j ∉ (beforeEntries cs).map Prod.fst ∧ j ∉ (afterEntries cs).map Prod.fst := by
  constructor <;>
  · intro hmem
    obtain ⟨p, hp, hpi⟩ := List.mem_map.mp hmem
    obtain ⟨hget, habs⟩ := sortedAbsolute_spec (List.mem_of_mem_filter hp)
    rw [hpi, h] at hget
    rw [← Option.some.inj hget] at habs
    rw [hreg] at habs
    simp at habs

/-- A background absolute child (z-index below 1) has its entry among
the background entries and its index in no other block. -/
theorem fst_mem_before {cs : List ParsedElement} {i : ℕ} {ei : ParsedElement}
    (h : cs[i]? = some ei) (habs : isAbsoluteChild ei.styles = true)
    (hz : zIndexOf ei.styles < 1) : (i, ei) ∈ beforeEntries cs :=
  List.mem_filter.mpr ⟨mem_sortedAbsolute h habs, by simpa using hz⟩

/-- An overlay absolute child (z-index at or above 1) has its entry among
the overlay entries. -/
theorem fst_mem_after {cs : List ParsedElement} {i : ℕ} {ei : ParsedElement}
    (h : cs[i]? = some ei) (habs : isAbsoluteChild ei.styles = true)
    (hz : ¬ zIndexOf ei.styles < 1) : (i, ei) ∈ afterEntries cs :=
  List.mem_filter.mpr ⟨mem_sortedAbsolute h habs, by simpa using hz⟩

/-- An overlay absolute child's index never occurs among the background
indices (and symmetrically). -/
theorem fst_not_mem_before_of_ge {cs : List ParsedElement} {i : ℕ}
    {ei : ParsedElement} (h : cs[i]? = some ei)
    (hz : ¬ zIndexOf ei.styles < 1) : i ∉ (beforeEntries cs).map Prod.fst := by
  intro hmem
  obtain ⟨p, hp, hpi⟩ := List.mem_map.mp hmem
  obtain ⟨hget, _⟩ := sortedAbsolute_spec (List.mem_of_mem_filter hp)
  have hcond := (List.mem_filter.mp hp).2
  rw [hpi, h] at hget
  rw [← Option.some.inj hget] at hcond
  simp at hcond
  exact hz hcond

/-- A background absolute child's index never occurs among the overlay
indices. -/
theorem fst_not_mem_after_of_lt {cs : List ParsedElement} {i : ℕ}
    {ei : ParsedElement} (h : cs[i]? = some ei)
    (hz : zIndexOf ei.styles < 1) : i ∉ (afterEntries cs).map Prod.fst := by
  intro hmem
  obtain ⟨p, hp, hpi⟩ := List.mem_map.mp hmem
  obtain ⟨hget, _⟩ := sortedAbsolute_spec (List.mem_of_mem_filter hp)
  have hcond := (List.mem_filter.mp hp).2
  rw [hpi, h] at hget
  rw [← Option.some.inj hget] at hcond
  simp at hcond
  exact absurd hz (not_lt_of_le hcond)

/-- C3: out-of-flow (absolutely positioned) children with stack-order
below 1 are inserted before all normal-flow children, those at or above 1
are inserted after all normal-flow children, and within each of the two
groups children with equal stack-order keep their original document
order. -/
theorem insertionOrder_stacking (L : LayoutMode) (cs : List ParsedElement) :
    (∀ i j ei ej, cs[i]? = some ei → cs[j]? = some ej →
      isAbsoluteChild ei.styles = true → zIndexOf ei.styles < 1 →
      isAbsoluteChild ej.styles = false →
      List.indexOf i (insertionOrder L cs) < List.indexOf j (insertionOrder L cs)) ∧
    (∀ i j ei ej, cs[i]? = some ei → cs[j]? = some ej →
      isAbsoluteChild ei.styles = true → ¬ zIndexOf ei.styles < 1 →
      isAbsoluteChild ej.styles = false →
      List.indexOf j (insertionOrder L cs) < List.indexOf i (insertionOrder L cs)) ∧
    (∀ i j ei ej, cs[i]? = some ei → cs[j]? = some ej →
      isAbsoluteChild ei.styles = true → isAbsoluteChild ej.styles = true →
      zIndexOf ei.styles = zIndexOf ej.styles → zIndexOf ei.styles < 1 → i < j →
      List.indexOf i (insertionOrder L cs) < List.indexOf j (insertionOrder L cs)) ∧
    (∀ i j ei ej, cs[i]? = some ei → cs[j]? = some ej →
      isAbsoluteChild ei.styles = true → isAbsoluteChild ej.styles = true →
      zIndexOf ei.styles = zIndexOf ej.styles → ¬ zIndexOf ei.styles < 1 → i < j →
      List.indexOf i (insertionOrder L cs) < List.indexOf j (insertionOrder L cs)) := by
  have hord : insertionOrder L cs =
      (beforeEntries cs).map Prod.fst ++
      ((flowEntries L cs).map Prod.fst ++ (afterEntries cs).map Prod.fst) := by
    simp [insertionOrder]
  have hpwB : (beforeEntries cs).Pairwise absLE :=
    (pairwise_sortedAbsolute cs).sublist (List.filter_sublist _)
  have hndB : ((beforeEntries cs).map Prod.fst).Nodup :=
    (nodup_fst_sortedAbsolute cs).sublist ((List.filter_sublist _).map Prod.fst)
  have hpwA : (afterEntries cs).Pairwise absLE :=
    (pairwise_sortedAbsolute cs).sublist (List.filter_sublist _)
  have hndA : ((afterEntries cs).map Prod.fst).Nodup :=
    (nodup_fst_sortedAbsolute cs).sublist ((List.filter_sublist _).map Prod.fst)
  refine ⟨?_, ?_, ?_, ?_⟩
  · -- background absolutes precede every normal-flow child
    intro i j ei ej hi hj habs hz hreg
    rw [hord]
    have hiB : i ∈ (beforeEntries cs).map Prod.fst :=
      List.mem_map.mpr ⟨(i, ei), fst_mem_before hi habs hz, rfl⟩
    have hjB := (fst_not_mem_absGroups hj hreg).1
    rw [List.indexOf_append_of_mem hiB, List.indexOf_append_of_not_mem hjB]
    have h1 := List.indexOf_lt_length.mpr hiB
    omega
  · -- overlay absolutes follow every normal-flow child
    intro i j ei ej hi hj habs hz hreg
    rw [hord]
    have hjF : j ∈ (flowEntries L cs).map Prod.fst := fst_mem_flow hj hreg
    have hjB := (fst_not_mem_absGroups hj hreg).1
    have hiB := fst_not_mem_before_of_ge hi hz
    have hiF := @fst_not_mem_flow L cs i ei hi habs
    rw [List.indexOf_append_of_not_mem hjB, List.indexOf_append_of_not_mem hiB,
        List.indexOf_append_of_mem hjF, List.indexOf_append_of_not_mem hiF]
    have h1 := List.indexOf_lt_length.mpr hjF
    omega
  · -- ties in the background group keep document order
    intro i j ei ej hi hj habsi habsj hzeq hz hij
    rw [hord]
    have hiB : (i, ei) ∈ beforeEntries cs := fst_mem_before hi habsi hz
    have hjB : (j, ej) ∈ beforeEntries cs := by
      refine fst_mem_before hj habsj ?_
      rw [← hzeq]; exact hz
    have hlt := indexOf_fst_lt_of_pairwise _ hpwB hndB (i, ei) (j, ej) hiB hjB
      (Or.inr ⟨hzeq, hij⟩)
    have hiB2 : i ∈ (beforeEntries cs).map Prod.fst := List.mem_map.mpr ⟨(i, ei), hiB, rfl⟩
    have hjB2 : j ∈ (beforeEntries cs).map Prod.fst := List.mem_map.mpr ⟨(j, ej), hjB, rfl⟩
    rw [List.indexOf_append_of_mem hiB2, List.indexOf_append_of_mem hjB2]
    exact hlt
  · -- ties in the overlay group keep document order
    intro i j ei ej hi hj habsi habsj hzeq hz hij
    rw [hord]
    have hzj : ¬ zIndexOf ej.styles < 1 := by rw [← hzeq]; exact hz
    have hiA : (i, ei) ∈ afterEntries cs := fst_mem_after hi habsi hz
    have hjA : (j, ej) ∈ afterEntries cs := fst_mem_after hj habsj hzj
    have hlt := indexOf_fst_lt_of_pairwise _ hpwA hndA (i, ei) (j, ej) hiA hjA
      (Or.inr ⟨hzeq, hij⟩)
    have hiB := fst_not_mem_before_of_ge hi hz
    have hjB := fst_not_mem_before_of_ge hj hzj
    have hiF := @fst_not_mem_flow L cs i ei hi habsi
    have hjF := @fst_not_mem_flow L cs j ej hj habsj
    rw [List.indexOf_append_of_not_mem hiB, List.indexOf_append_of_not_mem hjB,
        List.indexOf_append_of_not_mem hiF, List.indexOf_append_of_not_mem hjF]
    have hlt2 : List.indexOf i ((afterEntries cs).map Prod.fst) <
        List.indexOf j ((afterEntries cs).map Prod.fst) := hlt
    omega

/-- Witness: two absolute children with z-index 0 and 2 plus one
normal-flow child render in the order
[z-index-0 child, normal-flow child, z-index-2 child]. -/
theorem insertionOrder_stacking_witness :
    insertionOrder LayoutMode.VERTICAL exampleStackChildren = [0, 2, 1] ∧
    List.indexOf 0 (insertionOrder LayoutMode.VERTICAL exampleStackChildren) <
      List.indexOf 2 (insertionOrder LayoutMode.VERTICAL exampleStackChildren) ∧
    List.indexOf 2 (insertionOrder LayoutMode.VERTICAL exampleStackChildren) <
      List.indexOf 1 (insertionOrder LayoutMode.VERTICAL exampleStackChildren) := by
  obtain ⟨p1, p2, _, _⟩ := insertionOrder_stacking LayoutMode.VERTICAL exampleStackChildren
  refine ⟨by decide, ?_, ?_⟩
  · exact p1 0 2 (exampleAbsEl 0) exampleNormEl rfl rfl (by decide) (by decide) (by decide)
  · exact p2 1 2 (exampleAbsEl 2) exampleNormEl rfl rfl (by decide) (by decide) (by decide)

/-- Every hexadecimal digit has value at most 15 (non-digits map to 0). -/
theorem hexVal_le_15 (c : Char) : hexVal c ≤ 15 := by
  unfold hexVal
  split_ifs with h1 h2 h3
  · obtain ⟨a, b⟩ := h1
    rw [Char.le_def] at a b
    have a2 : 48 ≤ c.toNat := a
    have b2 : c.toNat ≤ 57 := b
    show c.toNat - 48 ≤ 15
    omega
  · obtain ⟨a, b⟩ := h2
    rw [Char.le_def] at a b
    have a2 : 97 ≤ c.toNat := a
    have b2 : c.toNat ≤ 102 := b
    show c.toNat - 97 + 10 ≤ 15
    omega
  · obtain ⟨a, b⟩ := h3
    rw [Char.le_def] at a b
    have a2 : 65 ≤ c.toNat := a
    have b2 : c.toNat ≤ 70 := b
    show c.toNat - 65 + 10 ≤ 15
    omega
  · omega

/-- A byte scaled by 1/255 is a normalized channel. -/
theorem natByte_chanIn01 (n : ℕ) (h : n ≤ 255) : chanIn01 (some ((n : ℚ) / 255)) := by
  unfold chanIn01
  constructor
  · positivity
  · rw [div_le_one (by norm_num)]
    exact_mod_cast h

/-- On nonnegative arguments the JS truncated remainder agrees with the
floor-based remainder and stays inside [0, y). -/
theorem truncMod_bounds (x y : ℚ) (hx : 0 ≤ x) (hy : 0 < y) :
    0 ≤ x - y * (ratTrunc (x / y) : ℚ) ∧ x - y * (ratTrunc (x / y) : ℚ) < y := by
  unfold ratTrunc
  rw [if_pos (div_nonneg hx hy.le)]
  constructor
  · have h1 : (⌊x / y⌋ : ℚ) ≤ x / y := Int.floor_le (x / y)
    have h2 : y * (⌊x / y⌋ : ℚ) ≤ y * (x / y) := by
      exact mul_le_mul_of_nonneg_left h1 hy.le
    rw [mul_div_cancel₀ x hy.ne.symm] at h2
    linarith
  · have h1 : x / y < (⌊x / y⌋ : ℚ) + 1 := Int.lt_floor_add_one (x / y)
    have h2 : y * (x / y) < y * ((⌊x / y⌋ : ℚ) + 1) := by
      exact mul_lt_mul_of_pos_left h1 hy
    rw [mul_div_cancel₀ x hy.ne.symm] at h2
    nlinarith

/-- The JS truncated remainder never drops below −y for positive y. -/
theorem truncMod_lower (x y : ℚ) (hy : 0 < y) :
    -y ≤ x - y * (ratTrunc (x / y) : ℚ) := by
  by_cases hx : 0 ≤ x
  · linarith [(truncMod_bounds x y hx hy).1]
  · push_neg at hx
    unfold ratTrunc
    rw [if_neg (not_le.mpr (div_neg_of_neg_of_pos hx hy))]
    push_cast
    have h1 : -(x / y) - 1 < (⌊-(x / y)⌋ : ℚ) := Int.sub_one_lt_floor _
    have h3 : y * (-(x / y) - 1) < y * (⌊-(x / y)⌋ : ℚ) := by
      exact mul_lt_mul_of_pos_left h1 hy
    have hxy : y * (x / y) = x := by field_simp
    have h4 : y * (-(x / y) - 1) = -x - y := by
      rw [mul_sub, mul_one, mul_neg, hxy]
    linarith

/-- The JS truncated remainder stays below y for positive y, for every
numerator. -/
theorem truncMod_upper (x y : ℚ) (hy : 0 < y) :
    x - y * (ratTrunc (x / y) : ℚ) < y := by
  by_cases hx : 0 ≤ x
  · exact (truncMod_bounds x y hx hy).2
  · push_neg at hx
    unfold ratTrunc
    rw [if_neg (not_le.mpr (div_neg_of_neg_of_pos hx hy))]
    push_cast
    have h1 : (⌊-(x / y)⌋ : ℚ) ≤ -(x / y) := Int.floor_le _
    have h2 : y * (⌊-(x / y)⌋ : ℚ) ≤ y * (-(x / y)) := by
      exact mul_le_mul_of_nonneg_left h1 hy.le
    have hxy : y * (x / y) = x := by field_simp
    have h3 : y * (-(x / y)) = -x := by rw [mul_neg, hxy]
    linarith

set_option maxHeartbeats 1600000 in
/-- For finite (non-NaN) hue, saturation and lightness inputs,
`hslToRgb` produces three finite channels inside [0,1]: the hue is
normalised into [0,360), s and l are clamped into [0,1], and each output
channel is (sector value) + m with 0 ≤ m and (sector value) + m ≤ 1. -/
theorem hslToRgb_chanIn01 (x σ lam : ℚ) :
    chanIn01 (hslToRgb (some x) (some σ) (some lam)).1 ∧
    chanIn01 (hslToRgb (some x) (some σ) (some lam)).2.1 ∧
    chanIn01 (hslToRgb (some x) (some σ) (some lam)).2.2 := by
  unfold hslToRgb
  simp only [jsMod, jadd, jmul, jsub, jdiv, jsAbs, jsMin, jsMax, jlt, decide_eq_true_eq]
  norm_num
  set m1 : ℚ := x - 360 * (ratTrunc (x / 360) : ℚ) with hm1
  set hq : ℚ := m1 + 360 - 360 * (ratTrunc ((m1 + 360) / 360) : ℚ) with hhq
  set l' : ℚ := 0 ⊔ 1 ⊓ lam with hl'
  set s' : ℚ := 0 ⊔ 1 ⊓ σ with hs'
  set t : ℚ := hq / 60 - 2 * (ratTrunc (hq / 60 / 2) : ℚ) with ht
  set c' : ℚ := (1 - |2 * l' - 1|) * s' with hc'
  have h360 : (0:ℚ) < 360 := by norm_num
  have hm1l : -360 ≤ m1 := by rw [hm1]; exact truncMod_lower x 360 h360
  have hq0 : 0 ≤ hq := by
    rw [hhq]; exact (truncMod_bounds (m1 + 360) 360 (by linarith) h360).1
  have hl0 : 0 ≤ l' := by rw [hl']; exact le_sup_left
  have hl1 : l' ≤ 1 := by rw [hl']; exact sup_le (by norm_num) inf_le_left
  have hs0 : 0 ≤ s' := by rw [hs']; exact le_sup_left
  have hs1 : s' ≤ 1 := by rw [hs']; exact sup_le (by norm_num) inf_le_left
  have ht01 : 0 ≤ t ∧ t < 2 := by
    rw [ht]; exact truncMod_bounds (hq / 60) 2 (by positivity) (by norm_num)
  have habs1 : |2 * l' - 1| ≤ 1 := abs_le.mpr ⟨by linarith, by linarith⟩
  have habs0 : 0 ≤ |2 * l' - 1| := abs_nonneg _
  have hc0 : 0 ≤ c' := by
    rw [hc']; exact mul_nonneg (by linarith) hs0
  have hcl : c' ≤ 2 * l' := by
    have hna : -|2 * l' - 1| ≤ 2 * l' - 1 := neg_abs_le _
    rw [hc']; nlinarith
  have hcu : c' ≤ 2 * (1 - l') := by
    have hsa : 2 * l' - 1 ≤ |2 * l' - 1| := le_abs_self _
    rw [hc']; nlinarith
  have habst : |t - 1| ≤ 1 := abs_le.mpr ⟨by linarith [ht01.1], by linarith [ht01.2]⟩
  have habst0 : 0 ≤ |t - 1| := abs_nonneg _
  have hx0 : 0 ≤ c' * (1 - |t - 1|) := mul_nonneg hc0 (by linarith)
  have hxc : c' * (1 - |t - 1|) ≤ c' := by nlinarith
  have hm0 : 0 ≤ l' - c' / 2 := by linarith
  clear hm1 hhq hl' hs' ht hc'
  clear_value m1 hq l' s' t c'
  split_ifs with h1 h2 h3 h4 h5 <;>
    refine ⟨⟨?_, ?_⟩, ⟨?_, ?_⟩, ⟨?_, ?_⟩⟩ <;> linarith

/-- Two hex digits encode a byte. -/
theorem hexByte_le_255 (a b : Char) : hexVal a * 16 + hexVal b ≤ 255 := by
  have ha := hexVal_le_15 a
  have hb := hexVal_le_15 b
  omega

/-- Every color produced by the hex branch has all four channels finite
and inside [0,1]. -/
theorem hexColorValue_chanIn01 (hex : List Char) (col : RGBA)
    (h : hexColorValue hex = some col) :
    chanIn01 col.r ∧ chanIn01 col.g ∧ chanIn01 col.b ∧ chanIn01 col.a := by
  unfold hexColorValue at h
  split at h
  · injection h with h
    subst h
    exact ⟨natByte_chanIn01 _ (hexByte_le_255 _ _), natByte_chanIn01 _ (hexByte_le_255 _ _),
      natByte_chanIn01 _ (hexByte_le_255 _ _), by norm_num, by norm_num⟩
  · injection h with h
    subst h
    exact ⟨natByte_chanIn01 _ (hexByte_le_255 _ _), natByte_chanIn01 _ (hexByte_le_255 _ _),
      natByte_chanIn01 _ (hexByte_le_255 _ _), by norm_num, by norm_num⟩
  · injection h with h
    subst h
    exact ⟨natByte_chanIn01 _ (hexByte_le_255 _ _), natByte_chanIn01 _ (hexByte_le_255 _ _),
      natByte_chanIn01 _ (hexByte_le_255 _ _), natByte_chanIn01 _ (hexByte_le_255 _ _)⟩
  · simp at h

set_option maxHeartbeats 1600000 in
/-- Every entry of the named-color dictionary has all four channels
finite and inside [0,1]. -/
theorem namedColors_chanIn01 (p : String × RGBA) (hp : p ∈ namedColors) :
    chanIn01 p.2.r ∧ chanIn01 p.2.g ∧ chanIn01 p.2.b ∧ chanIn01 p.2.a := by
  fin_cases hp <;> norm_num [chanIn01, rgbaQ]

/-- C6 (amended): every color accepted by `parseColor` whose input lies
in the CSS range (functional rgb channels at most 255 with alpha in
0–1, functional hsl numeric components finite with alpha in 0–1; hex
and named inputs unconditionally) yields a quadruple with every channel
finite and normalized to [0,1]. -/
theorem parseColor_normalized (s : String) (col : RGBA)
    (hp : parseColor s = some col) (hin : normalizedColorInput s.data) :
    chanIn01 col.r ∧ chanIn01 col.g ∧ chanIn01 col.b ∧ chanIn01 col.a := by
  unfold parseColor at hp
  unfold normalizedColorInput at hin
  by_cases hs : s = ""
  · rw [if_pos hs] at hp
    exact absurd hp (by simp)
  · rw [if_neg hs] at hp
    simp only [] at hp
    rcases hhex : (matchHexColor s.data).bind hexColorValue with _ | colh
    · rw [hhex] at hp hin
      simp only [] at hp
      rcases hrgb : scan rgbAt s.data with _ | ⟨d1, d2, d3, aCap⟩
      · rw [hrgb] at hp hin
        simp only [] at hp
        rcases hhsl : scan hslAt s.data with _ | ⟨hv, sv, lv, aCap⟩
        · rw [hhsl] at hp
          simp only [] at hp
          rcases hfind : namedColors.find? (fun p => p.1 = s.toLower) with _ | p
          · rw [hfind] at hp
            exact absurd hp (by simp)
          · rw [hfind] at hp
            have hp2 : some p.2 = some col := hp
            injection hp2 with hp2
            subst hp2
            exact namedColors_chanIn01 p (List.mem_of_find?_eq_some hfind)
        · rw [hhsl] at hp hin
          simp only [] at hp
          obtain ⟨hh, hs2, hl2, ha⟩ := hin
          obtain ⟨qh, hqh⟩ := Option.isSome_iff_exists.mp hh
          obtain ⟨qs, hqs⟩ := Option.isSome_iff_exists.mp hs2
          obtain ⟨ql, hql⟩ := Option.isSome_iff_exists.mp hl2
          rw [hqh, hqs, hql] at hp
          rw [show jdiv (some qs) (some 100) = some (qs / 100) from by norm_num [jdiv]] at hp
          rw [show jdiv (some ql) (some 100) = some (ql / 100) from by norm_num [jdiv]] at hp
          rcases aCap with _ | av
          · simp only [] at hp
            injection hp with hp
            subst hp
            obtain ⟨c1, c2, c3⟩ := hslToRgb_chanIn01 qh (qs / 100) (ql / 100)
            exact ⟨c1, c2, c3, by norm_num, by norm_num⟩
          · simp only [] at hp
            obtain ⟨qa, hqa, hqa0, hqa1⟩ := ha
            rw [hqa] at hp
            injection hp with hp
            subst hp
            obtain ⟨c1, c2, c3⟩ := hslToRgb_chanIn01 qh (qs / 100) (ql / 100)
            exact ⟨c1, c2, c3, hqa0, hqa1⟩
      · rw [hrgb] at hp hin
        simp only [] at hp
        obtain ⟨hd1, hd2, hd3, ha⟩ := hin
        rcases aCap with _ | av
        · simp only [] at hp
          injection hp with hp
          subst hp
          exact ⟨natByte_chanIn01 d1 hd1, natByte_chanIn01 d2 hd2,
            natByte_chanIn01 d3 hd3, by norm_num, by norm_num⟩
        · simp only [] at hp
          obtain ⟨qa, hqa, hqa0, hqa1⟩ := ha
          rw [hqa] at hp
          injection hp with hp
          subst hp
          exact ⟨natByte_chanIn01 d1 hd1, natByte_chanIn01 d2 hd2,
            natByte_chanIn01 d3 hd3, hqa0, hqa1⟩
    · rw [hhex] at hp
      simp only [] at hp
      have hp2 : some colh = some col := hp
      injection hp2 with hp2
      subst hp2
      obtain ⟨hx, hmx, hcv⟩ := Option.bind_eq_some.mp hhex
      exact hexColorValue_chanIn01 hx colh hcv

/-- Witness: "rgb(10, 20, 30)" is in CSS range, is accepted by
`parseColor`, and every channel of its result is finite and in [0,1]. -/
theorem parseColor_normalized_witness :
    normalizedColorInput ("rgb(10, 20, 30)" : String).data ∧
    ∃ col, parseColor "rgb(10, 20, 30)" = some col ∧
      (chanIn01 col.r ∧ chanIn01 col.g ∧ chanIn01 col.b ∧ chanIn01 col.a) := by
  have hin : normalizedColorInput ("rgb(10, 20, 30)" : String).data := by
    show (10 : ℕ) ≤ 255 ∧ (20 : ℕ) ≤ 255 ∧ (30 : ℕ) ≤ 255 ∧ alphaCapIn01 none
    exact ⟨by norm_num, by norm_num, by norm_num, trivial⟩
  have hp : parseColor "rgb(10, 20, 30)" =
      some ⟨some (((10 : ℕ) : ℚ) / 255), some (((20 : ℕ) : ℚ) / 255),
            some (((30 : ℕ) : ℚ) / 255), some 1⟩ := rfl
  exact ⟨hin, _, hp, parseColor_normalized _ _ hp hin⟩

/-- Counterexample to the unconditional claim: "rgb(300, 0, 0)" is
accepted by `parseColor`, yet its red channel 300/255 exceeds 1 — the
rgb branch divides by 255 without clamping the captured integers. -/
theorem parseColor_not_normalized_counterexample :
    parseColor "rgb(300, 0, 0)" =
      some ⟨some (((300 : ℕ) : ℚ) / 255), some (((0 : ℕ) : ℚ) / 255),
            some (((0 : ℕ) : ℚ) / 255), some 1⟩ ∧
    ¬ chanIn01 (some (((300 : ℕ) : ℚ) / 255)) := by
  constructor
  · rfl
  · intro hc
    obtain ⟨-, h1⟩ := hc
    norm_num at h1

/-- A string whose characters are a '#' followed by 3–8 hex digits is
resolved by `parseColor` through the hex branch. -/
theorem parseColor_hex_eq (s : String) (ds : List Char) (col : RGBA)
    (hdata : s.data = '#' :: ds) (hlen : 3 ≤ ds.length ∧ ds.length ≤ 8)
    (hall : ds.all isHexDigit = true) (hv : hexColorValue ds = some col) :
    parseColor s = some col := by
  have hne : s ≠ "" := by
    intro h
    rw [h] at hdata
    simp at hdata
  unfold parseColor
  rw [if_neg hne]
  simp only []
  have hm : matchHexColor s.data = some ds := by
    rw [hdata]
    show (if 3 ≤ ds.length ∧ ds.length ≤ 8 ∧ ds.all isHexDigit = true
      then some ds else none) = some ds
    rw [if_pos ⟨hlen.1, hlen.2, hall⟩]
  rw [hm]
  simp only [Option.some_bind, hv]

/-- C7: for every 3-, 6- or 8-digit hex color string, `parseColor`
returns the quadruple of encoded bytes each divided by 255 (alpha 1 when
no alpha digits are present); every such channel lies in [0,1] and
multiplying it back by 255 recovers exactly the encoded byte. -/
theorem parseColor_hex_roundtrip (s3 s6 s8 : String) (d0 d1 d2 d3 d4 d5 d6 d7 : Char)
    (hd3 : s3.data = ['#', d0, d1, d2])
    (hd6 : s6.data = ['#', d0, d1, d2, d3, d4, d5])
    (hd8 : s8.data = ['#', d0, d1, d2, d3, d4, d5, d6, d7])
    (h0 : isHexDigit d0 = true) (h1 : isHexDigit d1 = true)
    (h2 : isHexDigit d2 = true) (h3 : isHexDigit d3 = true)
    (h4 : isHexDigit d4 = true) (h5 : isHexDigit d5 = true)
    (h6 : isHexDigit d6 = true) (h7 : isHexDigit d7 = true) :
    parseColor s3 = some (rgbaQ ((hexVal d0 * 16 + hexVal d0 : ℕ) / 255)
      ((hexVal d1 * 16 + hexVal d1 : ℕ) / 255)
      ((hexVal d2 * 16 + hexVal d2 : ℕ) / 255) 1) ∧
    parseColor s6 = some (rgbaQ ((hexVal d0 * 16 + hexVal d1 : ℕ) / 255)
      ((hexVal d2 * 16 + hexVal d3 : ℕ) / 255)
      ((hexVal d4 * 16 + hexVal d5 : ℕ) / 255) 1) ∧
    parseColor s8 = some ⟨some ((hexVal d0 * 16 + hexVal d1 : ℕ) / 255),
      some ((hexVal d2 * 16 + hexVal d3 : ℕ) / 255),
      some ((hexVal d4 * 16 + hexVal d5 : ℕ) / 255),
      some ((hexVal d6 * 16 + hexVal d7 : ℕ) / 255)⟩ ∧
    (∀ a b : Char, 0 ≤ ((hexVal a * 16 + hexVal b : ℕ) : ℚ) / 255 ∧
      ((hexVal a * 16 + hexVal b : ℕ) : ℚ) / 255 ≤ 1 ∧
      ((hexVal a * 16 + hexVal b : ℕ) : ℚ) / 255 * 255 =
        ((hexVal a * 16 + hexVal b : ℕ) : ℚ)) := by
  refine ⟨parseColor_hex_eq s3 [d0, d1, d2] _ hd3 ⟨by simp, by simp⟩
      (by simp [List.all_cons, h0, h1, h2]) rfl,
    parseColor_hex_eq s6 [d0, d1, d2, d3, d4, d5] _ hd6 ⟨by simp, by simp⟩
      (by simp [List.all_cons, h0, h1, h2, h3, h4, h5]) rfl,
    parseColor_hex_eq s8 [d0, d1, d2, d3, d4, d5, d6, d7] _ hd8 ⟨by simp, by simp⟩
      (by simp [List.all_cons, h0, h1, h2, h3, h4, h5, h6, h7]) rfl,
    fun a b => ⟨by positivity, ?_, ?_⟩⟩
  · rw [div_le_one (by norm_num)]
    exact_mod_cast hexByte_le_255 a b
  · exact div_mul_cancel₀ _ (by norm_num)

/-- Witness: "#1a2b3c" parses to bytes 26, 43, 60 over 255 with alpha 1,
and 26/255 multiplied back by 255 is exactly 26. -/
theorem parseColor_hex_roundtrip_witness :
    parseColor "#1a2b3c" = some (rgbaQ (((26 : ℕ) : ℚ) / 255) (((43 : ℕ) : ℚ) / 255)
      (((60 : ℕ) : ℚ) / 255) 1) ∧
    ((26 : ℕ) : ℚ) / 255 * 255 = ((26 : ℕ) : ℚ) := by
  obtain ⟨e3, e6, e8, hrt⟩ := parseColor_hex_roundtrip "#1a2" "#1a2b3c" "#1a2b3c4d"
    '1' 'a' '2' 'b' '3' 'c' '4' 'd' rfl rfl rfl (by decide) (by decide) (by decide)
    (by decide) (by decide) (by decide) (by decide) (by decide)
  constructor
  · rw [show (hexVal '1' * 16 + hexVal 'a' : ℕ) = 26 from by decide,
      show (hexVal '2' * 16 + hexVal 'b' : ℕ) = 43 from by decide,
      show (hexVal '3' * 16 + hexVal 'c' : ℕ) = 60 from by decide] at e6
    exact e6
  · have h := (hrt '1' 'a').2.2
    rw [show (hexVal '1' * 16 + hexVal 'a' : ℕ) = 26 from by decide] at h
    exact h

end Spec2Proof
